import Mathlib

/-!
Verification of the batch-processing orchestration core of the Cobra
repository against its specification.  The Python modules
`batch_processing/core/queue.py`, `batch_processing/core/status.py`,
`batch_processing/memory/memory_manager.py` and
`batch_processing/processor.py` are shallowly embedded as Lean
definitions and the specified properties are proved (or refuted) about
them.  Machine timestamps (`time.time()`) are modelled as an abstract
monotone tick counter; uuid identifiers are modelled as an abstract
`Nat` drawn from a fresh counter; the external colorization pipeline
(the Renderer collaborator imported from `app.py`) is modelled as an
oracle parameter.
-/

set_option maxRecDepth 8000
set_option linter.unnecessarySeqFocus false

/-! ## Embedding of `batch_processing/core/queue.py` -/

/-- Embeds `ImageQueueItem`.  The uuid string id is modelled as a `Nat`;
the optional per-image `config`, `image_type` and
`classification_confidence` fields play no role in any claim and are
omitted. -/
structure ImageQueueItem where
  id : Nat
  input_path : String
  output_path : String
  priority : Int
deriving Repr, DecidableEq

/-- Embeds `ImageQueue`: the backing list `_queue` plus the separately
maintained `_size` counter. -/
structure ImageQueue where
  queue : List ImageQueueItem
  size : Nat
deriving Repr, DecidableEq

def ImageQueue.empty : ImageQueue := ⟨[], 0⟩

/-- The insertion scan of `ImageQueue.enqueue` (queue.py lines 72-79):
insert before the first queued item whose priority is strictly smaller
than the new item's priority, else append. -/
def insertByPriority (item : ImageQueueItem) : List ImageQueueItem → List ImageQueueItem
  | [] => [item]
  | x :: xs =>
    if item.priority > x.priority then item :: x :: xs
    else x :: insertByPriority item xs

/-- Embeds `ImageQueue.enqueue`. -/
def ImageQueue.enqueue (q : ImageQueue) (item : ImageQueueItem) : ImageQueue :=
  ⟨insertByPriority item q.queue, q.size + 1⟩

/-- Embeds `ImageQueue.dequeue`: `None` on an empty queue, otherwise pop
the head.  (The inner `[]` case is unreachable whenever `size` agrees
with the backing list, which every reachable queue satisfies.) -/
def ImageQueue.dequeue (q : ImageQueue) : Option ImageQueueItem × ImageQueue :=
  if q.size = 0 then (none, q)
  else
    match q.queue with
    | [] => (none, q)
    | x :: xs => (some x, ⟨xs, q.size - 1⟩)

/-- Embeds `ImageQueue.peek`. -/
def ImageQueue.peek (q : ImageQueue) : Option ImageQueueItem :=
  if q.size = 0 then none else q.queue.head?

/-- Repeatedly `dequeue` until the empty signal: the observable dequeue
order of the queue.  Fuel-driven; `drainAll` supplies `size` as fuel. -/
def ImageQueue.drain : Nat → ImageQueue → List ImageQueueItem
  | 0, _ => []
  | fuel + 1, q =>
    match q.dequeue with
    | (none, _) => []
    | (some x, q2) => x :: ImageQueue.drain fuel q2

def ImageQueue.drainAll (q : ImageQueue) : List ImageQueueItem :=
  ImageQueue.drain q.size q

/-- Enqueue a whole batch in order. -/
def ImageQueue.enqueueAll (q : ImageQueue) (items : List ImageQueueItem) : ImageQueue :=
  items.foldl ImageQueue.enqueue q

/-- Sorted by non-increasing priority. -/
def SortedByPriority (l : List ImageQueueItem) : Prop :=
  l.Pairwise (fun a b => b.priority ≤ a.priority)

/-- The subsequence of items carrying priority `p`, in order. -/
def filterPrio (p : Int) (l : List ImageQueueItem) : List ImageQueueItem :=
  l.filter (fun a => a.priority = p)

theorem mem_insertByPriority {a item : ImageQueueItem} {l : List ImageQueueItem} :
    a ∈ insertByPriority item l ↔ a = item ∨ a ∈ l := by
  induction l with
  | nil => simp [insertByPriority]
  | cons x xs ih =>
    by_cases h : item.priority > x.priority
    · simp [insertByPriority, h]
    · simp only [insertByPriority, if_neg h, List.mem_cons, ih]
      tauto

theorem sorted_insertByPriority {item : ImageQueueItem} {l : List ImageQueueItem}
    (hs : SortedByPriority l) : SortedByPriority (insertByPriority item l) := by
  induction l with
  | nil => simp [insertByPriority, SortedByPriority]
  | cons x xs ih =>
    rcases List.pairwise_cons.mp hs with ⟨hx, hxs⟩
    by_cases h : item.priority > x.priority
    · simp only [insertByPriority, if_pos h]
      refine List.pairwise_cons.mpr ⟨?_, hs⟩
      intro b hb
      rcases List.mem_cons.mp hb with rfl | hb
      · exact le_of_lt h
      · exact le_trans (hx b hb) (le_of_lt h)
    · simp only [insertByPriority, if_neg h]
      refine List.pairwise_cons.mpr ⟨?_, ih hxs⟩
      intro b hb
      rcases mem_insertByPriority.mp hb with rfl | hb
      · exact le_of_not_lt h
      · exact hx b hb

theorem filterPrio_eq_nil_of_lt {p : Int} {l : List ImageQueueItem}
    (h : ∀ a ∈ l, a.priority < p) : filterPrio p l = [] := by
  induction l with
  | nil => rfl
  | cons x xs ih =>
    have hx : x.priority ≠ p := ne_of_lt (h x (List.mem_cons_self x xs))
    simp only [filterPrio, List.filter_cons]
    rw [if_neg (by simpa using hx)]
    exact ih (fun a ha => h a (List.mem_cons_of_mem x ha))

theorem filterPrio_cons (p : Int) (x : ImageQueueItem) (l : List ImageQueueItem) :
    filterPrio p (x :: l) =
      if x.priority = p then x :: filterPrio p l else filterPrio p l := by
  by_cases hxp : x.priority = p <;> simp [filterPrio, List.filter_cons, hxp]

theorem filterPrio_insertByPriority {item : ImageQueueItem} {l : List ImageQueueItem}
    (hs : SortedByPriority l) (p : Int) :
    filterPrio p (insertByPriority item l) =
      if item.priority = p then filterPrio p l ++ [item] else filterPrio p l := by
  induction l with
  | nil =>
    by_cases hp : item.priority = p <;>
      simp [insertByPriority, filterPrio, List.filter_cons, hp]
  | cons x xs ih =>
    rcases List.pairwise_cons.mp hs with ⟨hx, hxs⟩
    by_cases h : item.priority > x.priority
    · -- item is inserted in front; nothing at or below has priority p = item.priority
      simp only [insertByPriority, if_pos h]
      by_cases hp : item.priority = p
      · have hnil : filterPrio p (x :: xs) = [] := by
          refine filterPrio_eq_nil_of_lt ?_
          intro a ha
          rcases List.mem_cons.mp ha with rfl | ha
          · omega
          · have := hx a ha; omega
        rw [filterPrio_cons, hnil]
        simp [hp]
      · simp [filterPrio_cons, hp]
    · simp only [insertByPriority, if_neg h]
      have hrec := ih hxs
      rw [filterPrio_cons, hrec, filterPrio_cons]
      by_cases hp : item.priority = p <;> by_cases hxp : x.priority = p <;>
        simp [hp, hxp]

theorem length_insertByPriority (item : ImageQueueItem) (l : List ImageQueueItem) :
    (insertByPriority item l).length = l.length + 1 := by
  induction l with
  | nil => rfl
  | cons x xs ih =>
    by_cases h : item.priority > x.priority <;>
      simp [insertByPriority, h, ih]

/-- Invariant tying `_size` to the backing list. -/
def ImageQueue.WF (q : ImageQueue) : Prop := q.size = q.queue.length

theorem enqueueAll_invariant (items : List ImageQueueItem) :
    ∀ q : ImageQueue, q.WF → SortedByPriority q.queue →
      (ImageQueue.enqueueAll q items).WF ∧
      SortedByPriority (ImageQueue.enqueueAll q items).queue ∧
      ∀ p : Int, filterPrio p (ImageQueue.enqueueAll q items).queue =
        filterPrio p q.queue ++ filterPrio p items := by
  induction items with
  | nil =>
    intro q hwf hs
    refine ⟨hwf, hs, ?_⟩
    intro p
    simp [ImageQueue.enqueueAll, filterPrio]
  | cons x xs ih =>
    intro q hwf hs
    have hwf2 : (q.enqueue x).WF := by
      simp [ImageQueue.enqueue, ImageQueue.WF, length_insertByPriority]
      exact hwf
    have hs2 : SortedByPriority (q.enqueue x).queue := sorted_insertByPriority hs
    rcases ih (q.enqueue x) hwf2 hs2 with ⟨h1, h2, h3⟩
    refine ⟨h1, h2, ?_⟩
    intro p
    show filterPrio p (ImageQueue.enqueueAll (q.enqueue x) xs).queue = _
    rw [h3 p]
    show filterPrio p (insertByPriority x q.queue) ++ filterPrio p xs =
      filterPrio p q.queue ++ filterPrio p (x :: xs)
    rw [filterPrio_insertByPriority hs p, filterPrio_cons]
    by_cases hp : x.priority = p <;> simp [hp]

theorem drain_eq_queue : ∀ l : List ImageQueueItem,
    ImageQueue.drain l.length ⟨l, l.length⟩ = l := by
  intro l
  induction l with
  | nil => rfl
  | cons x xs ih =>
    show ImageQueue.drain (xs.length + 1) ⟨x :: xs, xs.length + 1⟩ = x :: xs
    simp only [ImageQueue.drain, ImageQueue.dequeue]
    rw [if_neg (Nat.succ_ne_zero xs.length)]
    simpa using ih

theorem drainAll_eq_queue {q : ImageQueue} (hwf : q.WF) : q.drainAll = q.queue := by
  rcases q with ⟨l, n⟩
  have : n = l.length := hwf
  subst this
  exact drain_eq_queue l

/-- Concrete items of the spec's worked example. -/
def itemA : ImageQueueItem := ⟨1, "A", "A_out", 0⟩
def itemB : ImageQueueItem := ⟨2, "B", "B_out", 5⟩
def itemC : ImageQueueItem := ⟨3, "C", "C_out", 0⟩

/-- C1: for every sequence of enqueues, repeated `dequeue` returns the
items in non-increasing priority order, equal-priority items come out in
their original enqueue order (the priority-`p` subsequence of the
dequeue order equals the priority-`p` subsequence of the enqueue order,
for every `p`), and the concrete example A(0), B(5), C(0) dequeues as
B, A, C. -/
theorem C1_priority_queue_ordering (items : List ImageQueueItem) :
    SortedByPriority (ImageQueue.empty.enqueueAll items).drainAll ∧
    (∀ p : Int, filterPrio p (ImageQueue.empty.enqueueAll items).drainAll =
      filterPrio p items) ∧
    (ImageQueue.empty.enqueueAll [itemA, itemB, itemC]).drainAll =
      [itemB, itemA, itemC] := by
  have hwf0 : ImageQueue.empty.WF := rfl
  have hs0 : SortedByPriority ImageQueue.empty.queue := List.Pairwise.nil
  rcases enqueueAll_invariant items ImageQueue.empty hwf0 hs0 with ⟨hwf, hs, hf⟩
  have hdrain := drainAll_eq_queue hwf
  refine ⟨hdrain ▸ hs, ?_, by decide⟩
  intro p
  rw [hdrain, hf p]
  simp [ImageQueue.empty, filterPrio]

/-! ## Embedding of `batch_processing/core/status.py`

`time.time()` values are modelled as abstract `Nat` instants supplied by
the caller (`now`); only their presence/absence matters for the claims.
`add_image` and `update_status` raise (`ValueError`/`KeyError`) strictly
before any mutation, so they are embedded as `Except`. -/

def validStates : List String :=
  ["pending", "processing", "completed", "failed", "cancelled"]

def terminalStates : List String := ["completed", "failed", "cancelled"]

/-- Embeds `ProcessingStatus` (uuid id modelled as `Nat`). -/
structure ProcessingStatus where
  id : Nat
  state : String
  start_time : Option Nat := none
  end_time : Option Nat := none
  error_message : Option String := none
  output_path : Option String := none
deriving Repr, DecidableEq

/-- Embeds `ProcessingStatus.is_terminal_state`. -/
def ProcessingStatus.is_terminal_state (s : ProcessingStatus) : Bool :=
  terminalStates.contains s.state

/-- Embeds `StatusSummary` (the derived aggregate). -/
structure StatusSummary where
  total : Nat
  pending : Nat := 0
  processing : Nat := 0
  completed : Nat := 0
  failed : Nat := 0
  cancelled : Nat := 0
  start_time : Option Nat := none
  end_time : Option Nat := none
deriving Repr, DecidableEq

/-- Embeds `StatusSummary.is_complete`. -/
def StatusSummary.is_complete (s : StatusSummary) : Bool :=
  s.completed + s.failed + s.cancelled == s.total

/-- Embeds `StatusTracker`.  The Python dict `_statuses` is
insertion-ordered, so it is embedded as an association list; new keys
are appended, updates rewrite in place. -/
structure StatusTracker where
  statuses : List (Nat × ProcessingStatus) := []
  batch_start_time : Option Nat := none
  batch_end_time : Option Nat := none
deriving Repr, DecidableEq

def StatusTracker.empty : StatusTracker := {}

/-- Embeds the read side of `StatusTracker.get_status` (which raises on
an unknown id, hence `Option`). -/
def lookupStatus (t : StatusTracker) (image_id : Nat) : Option ProcessingStatus :=
  (t.statuses.find? (fun e => e.1 == image_id)).map (fun e => e.2)

/-- Embeds `StatusTracker.add_image`. -/
def StatusTracker.add_image (t : StatusTracker) (image_id : Nat) (now : Nat) :
    Except String StatusTracker :=
  if (t.statuses.any (fun e => e.1 == image_id)) = true then
    .error "Image is already being tracked"
  else
    .ok { t with
      statuses := t.statuses ++ [(image_id, { id := image_id, state := "pending" })],
      batch_start_time :=
        if t.batch_start_time = none then some now else t.batch_start_time }

/-- The in-place mutation `update_status` performs on the tracked entry
(status.py lines 192-211): set the new state; stamp `start_time` on the
pending→processing transition; stamp `end_time` on the first transition
into a terminal state; overwrite message/path only when given. -/
def updEntry (image_id : Nat) (state : String) (error_message output_path : Option String)
    (now : Nat) (e : Nat × ProcessingStatus) : Nat × ProcessingStatus :=
  if e.1 = image_id then
    (e.1, { e.2 with
      state := state,
      start_time :=
        if state = "processing" ∧ e.2.state = "pending" then some now else e.2.start_time,
      end_time :=
        if terminalStates.contains state ∧ e.2.end_time = none then some now
        else e.2.end_time,
      error_message := if error_message ≠ none then error_message else e.2.error_message,
      output_path := if output_path ≠ none then output_path else e.2.output_path })
  else e

/-- The counting fold of `StatusTracker.get_summary`. -/
def summaryStep (s : StatusSummary) (e : Nat × ProcessingStatus) : StatusSummary :=
  if e.2.state = "pending" then { s with pending := s.pending + 1 }
  else if e.2.state = "processing" then { s with processing := s.processing + 1 }
  else if e.2.state = "completed" then { s with completed := s.completed + 1 }
  else if e.2.state = "failed" then { s with failed := s.failed + 1 }
  else if e.2.state = "cancelled" then { s with cancelled := s.cancelled + 1 }
  else s

/-- Embeds `StatusTracker.get_summary`. -/
def StatusTracker.get_summary (t : StatusTracker) : StatusSummary :=
  t.statuses.foldl summaryStep
    { total := t.statuses.length,
      start_time := t.batch_start_time,
      end_time := t.batch_end_time }

/-- The tracker with the entry for `image_id` rewritten (the state of
`self` right after the in-place mutation, before the batch-end check). -/
def updTracker (t : StatusTracker) (image_id : Nat) (state : String)
    (error_message output_path : Option String) (now : Nat) : StatusTracker :=
  { t with statuses := t.statuses.map (updEntry image_id state error_message output_path now) }

/-- Embeds `StatusTracker.update_status`: validate id and state (raising
before any mutation), rewrite the entry, then stamp `_batch_end_time`
once when the freshly computed summary says the batch is complete. -/
def StatusTracker.update_status (t : StatusTracker) (image_id : Nat) (state : String)
    (error_message output_path : Option String) (now : Nat) :
    Except String StatusTracker :=
  if (t.statuses.any (fun e => e.1 == image_id)) = false then
    .error "Image is not being tracked"
  else if (validStates.contains state) = false then
    .error "Invalid state"
  else
    if (updTracker t image_id state error_message output_path now).get_summary.is_complete = true ∧
        (updTracker t image_id state error_message output_path now).batch_end_time = none then
      .ok { updTracker t image_id state error_message output_path now with
              batch_end_time := some now }
    else
      .ok (updTracker t image_id state error_message output_path now)

/-! ### Summary counting lemmas -/

/-- Number of tracked entries currently in state `s`. -/
def countState (l : List (Nat × ProcessingStatus)) (s : String) : Nat :=
  l.countP (fun e => e.2.state == s)

theorem foldl_summaryStep_total (l : List (Nat × ProcessingStatus)) :
    ∀ init : StatusSummary, (l.foldl summaryStep init).total = init.total := by
  induction l with
  | nil => intro init; rfl
  | cons e l ih =>
    intro init
    rw [List.foldl_cons, ih]
    unfold summaryStep
    split_ifs <;> rfl

theorem foldl_summaryStep_end_time (l : List (Nat × ProcessingStatus)) :
    ∀ init : StatusSummary, (l.foldl summaryStep init).end_time = init.end_time := by
  induction l with
  | nil => intro init; rfl
  | cons e l ih =>
    intro init
    rw [List.foldl_cons, ih]
    unfold summaryStep
    split_ifs <;> rfl

theorem summaryStep_pending (init : StatusSummary) (e : Nat × ProcessingStatus) :
    (summaryStep init e).pending =
      init.pending + if e.2.state = "pending" then 1 else 0 := by
  unfold summaryStep
  split_ifs <;> simp_all

theorem summaryStep_processing (init : StatusSummary) (e : Nat × ProcessingStatus) :
    (summaryStep init e).processing =
      init.processing + if e.2.state = "processing" then 1 else 0 := by
  unfold summaryStep
  split_ifs <;> simp_all

theorem summaryStep_completed (init : StatusSummary) (e : Nat × ProcessingStatus) :
    (summaryStep init e).completed =
      init.completed + if e.2.state = "completed" then 1 else 0 := by
  unfold summaryStep
  split_ifs <;> simp_all

theorem summaryStep_failed (init : StatusSummary) (e : Nat × ProcessingStatus) :
    (summaryStep init e).failed =
      init.failed + if e.2.state = "failed" then 1 else 0 := by
  unfold summaryStep
  split_ifs <;> simp_all

theorem summaryStep_cancelled (init : StatusSummary) (e : Nat × ProcessingStatus) :
    (summaryStep init e).cancelled =
      init.cancelled + if e.2.state = "cancelled" then 1 else 0 := by
  unfold summaryStep
  split_ifs <;> simp_all

theorem foldl_summaryStep_pending (l : List (Nat × ProcessingStatus)) :
    ∀ init : StatusSummary,
      (l.foldl summaryStep init).pending = init.pending + countState l "pending" := by
  induction l with
  | nil => intro init; simp [countState]
  | cons e l ih =>
    intro init
    rw [List.foldl_cons, ih, summaryStep_pending]
    simp only [countState, List.countP_cons]
    by_cases h : e.2.state = "pending" <;> simp [h] <;> omega

theorem foldl_summaryStep_processing (l : List (Nat × ProcessingStatus)) :
    ∀ init : StatusSummary,
      (l.foldl summaryStep init).processing = init.processing + countState l "processing" := by
  induction l with
  | nil => intro init; simp [countState]
  | cons e l ih =>
    intro init
    rw [List.foldl_cons, ih, summaryStep_processing]
    simp only [countState, List.countP_cons]
    by_cases h : e.2.state = "processing" <;> simp [h] <;> omega

theorem foldl_summaryStep_completed (l : List (Nat × ProcessingStatus)) :
    ∀ init : StatusSummary,
      (l.foldl summaryStep init).completed = init.completed + countState l "completed" := by
  induction l with
  | nil => intro init; simp [countState]
  | cons e l ih =>
    intro init
    rw [List.foldl_cons, ih, summaryStep_completed]
    simp only [countState, List.countP_cons]
    by_cases h : e.2.state = "completed" <;> simp [h] <;> omega

theorem foldl_summaryStep_failed (l : List (Nat × ProcessingStatus)) :
    ∀ init : StatusSummary,
      (l.foldl summaryStep init).failed = init.failed + countState l "failed" := by
  induction l with
  | nil => intro init; simp [countState]
  | cons e l ih =>
    intro init
    rw [List.foldl_cons, ih, summaryStep_failed]
    simp only [countState, List.countP_cons]
    by_cases h : e.2.state = "failed" <;> simp [h] <;> omega

theorem foldl_summaryStep_cancelled (l : List (Nat × ProcessingStatus)) :
    ∀ init : StatusSummary,
      (l.foldl summaryStep init).cancelled = init.cancelled + countState l "cancelled" := by
  induction l with
  | nil => intro init; simp [countState]
  | cons e l ih =>
    intro init
    rw [List.foldl_cons, ih, summaryStep_cancelled]
    simp only [countState, List.countP_cons]
    by_cases h : e.2.state = "cancelled" <;> simp [h] <;> omega

theorem get_summary_total (t : StatusTracker) :
    t.get_summary.total = t.statuses.length := by
  unfold StatusTracker.get_summary
  rw [foldl_summaryStep_total]

theorem get_summary_end_time (t : StatusTracker) :
    t.get_summary.end_time = t.batch_end_time := by
  unfold StatusTracker.get_summary
  rw [foldl_summaryStep_end_time]

theorem get_summary_pending (t : StatusTracker) :
    t.get_summary.pending = countState t.statuses "pending" := by
  unfold StatusTracker.get_summary
  rw [foldl_summaryStep_pending]
  simp

theorem get_summary_processing (t : StatusTracker) :
    t.get_summary.processing = countState t.statuses "processing" := by
  unfold StatusTracker.get_summary
  rw [foldl_summaryStep_processing]
  simp

theorem get_summary_completed (t : StatusTracker) :
    t.get_summary.completed = countState t.statuses "completed" := by
  unfold StatusTracker.get_summary
  rw [foldl_summaryStep_completed]
  simp

theorem get_summary_failed (t : StatusTracker) :
    t.get_summary.failed = countState t.statuses "failed" := by
  unfold StatusTracker.get_summary
  rw [foldl_summaryStep_failed]
  simp

theorem get_summary_cancelled (t : StatusTracker) :
    t.get_summary.cancelled = countState t.statuses "cancelled" := by
  unfold StatusTracker.get_summary
  rw [foldl_summaryStep_cancelled]
  simp

/-- Every tracked entry holds one of the five recognised states. -/
def AllValidStates (t : StatusTracker) : Prop :=
  ∀ e ∈ t.statuses, e.2.state ∈ validStates

theorem counts_partition (l : List (Nat × ProcessingStatus))
    (h : ∀ e ∈ l, e.2.state ∈ validStates) :
    countState l "pending" + countState l "processing" + countState l "completed" +
      countState l "failed" + countState l "cancelled" = l.length := by
  induction l with
  | nil => simp [countState]
  | cons e l ih =>
    have he := h e (List.mem_cons_self e l)
    have hrest := ih (fun a ha => h a (List.mem_cons_of_mem e ha))
    simp only [countState, List.countP_cons] at hrest ⊢
    have hcases : e.2.state = "pending" ∨ e.2.state = "processing" ∨
        e.2.state = "completed" ∨ e.2.state = "failed" ∨ e.2.state = "cancelled" := by
      simpa [validStates] using he
    rcases hcases with h1 | h1 | h1 | h1 | h1 <;> simp [h1] <;> omega

/-! ### Inversion lemmas for the tracker operations -/

theorem add_image_ok {t t2 : StatusTracker} {image_id now : Nat}
    (h : t.add_image image_id now = .ok t2) :
    t2.statuses = t.statuses ++ [(image_id, { id := image_id, state := "pending" })] ∧
    t2.batch_end_time = t.batch_end_time := by
  unfold StatusTracker.add_image at h
  by_cases hc : (t.statuses.any (fun e => e.1 == image_id)) = true
  · rw [if_pos hc] at h
    exact absurd h (by simp)
  · rw [if_neg hc] at h
    injection h with h
    rw [← h]
    exact ⟨rfl, rfl⟩

theorem updTracker_batch_end (t : StatusTracker) (image_id : Nat) (s : String)
    (msg path : Option String) (now : Nat) :
    (updTracker t image_id s msg path now).batch_end_time = t.batch_end_time := rfl

theorem update_status_eq (t : StatusTracker) (image_id : Nat) (s : String)
    (msg path : Option String) (now : Nat)
    (h1 : (t.statuses.any (fun e => e.1 == image_id)) = true)
    (h2 : (validStates.contains s) = true) :
    t.update_status image_id s msg path now =
      .ok (if (updTracker t image_id s msg path now).get_summary.is_complete = true ∧
              (updTracker t image_id s msg path now).batch_end_time = none then
            { updTracker t image_id s msg path now with batch_end_time := some now }
          else updTracker t image_id s msg path now) := by
  unfold StatusTracker.update_status
  rw [if_neg (by simp only [h1]; decide), if_neg (by simp only [h2]; decide)]
  split <;> rfl

theorem update_status_ok_inv {t t2 : StatusTracker} {image_id : Nat} {s : String}
    {msg path : Option String} {now : Nat}
    (h : t.update_status image_id s msg path now = .ok t2) :
    (validStates.contains s) = true ∧
    t2.statuses = t.statuses.map (updEntry image_id s msg path now) := by
  unfold StatusTracker.update_status at h
  by_cases h1 : (t.statuses.any (fun e => e.1 == image_id)) = false
  · rw [if_pos h1] at h
    exact absurd h (by simp)
  · rw [if_neg h1] at h
    by_cases h2 : (validStates.contains s) = false
    · rw [if_pos h2] at h
      exact absurd h (by simp)
    · rw [if_neg h2] at h
      refine ⟨by simpa using h2, ?_⟩
      split at h <;> (injection h with h; rw [← h]; rfl)

/-! ### Reachability and the summary invariant (C2) -/

/-- Tracker states reachable by any sequence of successful `add_image`
and `update_status` calls, starting from a fresh tracker. -/
inductive TrackerReachable : StatusTracker → Prop
  | init : TrackerReachable StatusTracker.empty
  | addStep {t t2 : StatusTracker} (image_id now : Nat) :
      TrackerReachable t → t.add_image image_id now = .ok t2 → TrackerReachable t2
  | updateStep {t t2 : StatusTracker} (image_id : Nat) (s : String)
      (msg path : Option String) (now : Nat) :
      TrackerReachable t → t.update_status image_id s msg path now = .ok t2 →
      TrackerReachable t2

theorem allValid_empty : AllValidStates StatusTracker.empty := by
  intro e he
  simp [StatusTracker.empty] at he

theorem allValid_add {t t2 : StatusTracker} {image_id now : Nat}
    (h : t.add_image image_id now = .ok t2) (ha : AllValidStates t) :
    AllValidStates t2 := by
  rcases add_image_ok h with ⟨hs, -⟩
  intro e he
  rw [hs] at he
  rcases List.mem_append.mp he with he | he
  · exact ha e he
  · have : e = (image_id, { id := image_id, state := "pending" }) := by simpa using he
    rw [this]
    simp [validStates]

theorem valid_of_contains {s : String} (h : (validStates.contains s) = true) :
    s ∈ validStates := by
  rw [validStates] at h ⊢
  simpa using h

theorem updEntry_state (image_id : Nat) (s : String) (msg path : Option String) (now : Nat)
    (e : Nat × ProcessingStatus) :
    (updEntry image_id s msg path now e).2.state =
      if e.1 = image_id then s else e.2.state := by
  unfold updEntry
  split <;> rfl

theorem updEntry_fst (image_id : Nat) (s : String) (msg path : Option String) (now : Nat)
    (e : Nat × ProcessingStatus) :
    (updEntry image_id s msg path now e).1 = e.1 := by
  unfold updEntry
  split <;> rfl

theorem allValid_update {t t2 : StatusTracker} {image_id : Nat} {s : String}
    {msg path : Option String} {now : Nat}
    (h : t.update_status image_id s msg path now = .ok t2) (ha : AllValidStates t) :
    AllValidStates t2 := by
  obtain ⟨hv, hs⟩ := update_status_ok_inv h
  intro e he
  rw [hs] at he
  rcases List.mem_map.mp he with ⟨a, haMem, rfl⟩
  rw [updEntry_state]
  split_ifs with hc
  · exact valid_of_contains hv
  · exact ha a haMem

theorem allValid_of_reachable {t : StatusTracker} (h : TrackerReachable t) :
    AllValidStates t := by
  induction h with
  | init => exact allValid_empty
  | addStep _ _ _ hok ih => exact allValid_add hok ih
  | updateStep _ _ _ _ _ _ hok ih => exact allValid_update hok ih

/-- C2: in every tracker state reachable by any sequence of `add_image`
and successful `update_status` calls, the summary satisfies
`pending + processing + completed + failed + cancelled = total`, where
`total` is the number of tracked jobs. -/
theorem C2_summary_partition_invariant (t : StatusTracker) (h : TrackerReachable t) :
    t.get_summary.pending + t.get_summary.processing + t.get_summary.completed +
      t.get_summary.failed + t.get_summary.cancelled = t.get_summary.total := by
  have hv := allValid_of_reachable h
  rw [get_summary_pending, get_summary_processing, get_summary_completed,
    get_summary_failed, get_summary_cancelled, get_summary_total]
  exact counts_partition t.statuses hv

def trackerEx : StatusTracker :=
  { statuses := [(1, { id := 1, state := "pending" })], batch_start_time := some 0 }

/-- Witness for C2 at the concrete tracker holding one pending job. -/
theorem C2_summary_partition_invariant_witness :
    trackerEx.get_summary.pending + trackerEx.get_summary.processing +
      trackerEx.get_summary.completed + trackerEx.get_summary.failed +
      trackerEx.get_summary.cancelled = trackerEx.get_summary.total :=
  C2_summary_partition_invariant trackerEx
    (TrackerReachable.addStep 1 0 TrackerReachable.init rfl)

/-! ### C4: terminal states are not protected by `update_status` -/

def c4_start : StatusTracker :=
  { statuses := [(1, { id := 1, state := "pending" })], batch_start_time := some 0 }

def c4_completed : StatusTracker :=
  { statuses := [(1, { id := 1, state := "completed", end_time := some 1 })],
    batch_start_time := some 0, batch_end_time := some 1 }

def c4_resurrected : StatusTracker :=
  { statuses := [(1, { id := 1, state := "pending", end_time := some 1 })],
    batch_start_time := some 0, batch_end_time := some 1 }

/-- C4 counterexample: a job whose state is the terminal `"completed"`
is moved back to `"pending"` by a subsequent successful `update_status`
call — `update_status` never inspects the old state before overwriting
it, so per-job updates are not monotonic and resurrection from a
terminal state is possible. -/
theorem C4_resurrection_counterexample :
    c4_start.update_status 1 "completed" none none 1 = .ok c4_completed ∧
    (lookupStatus c4_completed 1).map (fun st => st.is_terminal_state) = some true ∧
    c4_completed.update_status 1 "pending" none none 2 = .ok c4_resurrected ∧
    (lookupStatus c4_resurrected 1).map (fun st => st.state) = some "pending" :=
  ⟨rfl, rfl, rfl, rfl⟩

theorem find_map_updEntry (l : List (Nat × ProcessingStatus)) (image_id : Nat) (s : String)
    (msg path : Option String) (now : Nat)
    (hk : (l.any (fun e => e.1 == image_id)) = true) :
    ∃ e2, ((l.map (updEntry image_id s msg path now)).find? (fun e => e.1 == image_id)) =
        some e2 ∧ e2.2.state = s := by
  induction l with
  | nil => simp at hk
  | cons a l ih =>
    rw [List.map_cons]
    by_cases ha : a.1 = image_id
    · refine ⟨updEntry image_id s msg path now a, ?_, ?_⟩
      · exact List.find?_cons_of_pos _ (by simp [updEntry_fst, ha])
      · rw [updEntry_state]
        simp [ha]
    · rw [List.find?_cons_of_neg _ (by simp [updEntry_fst, ha])]
      exact ih (by simpa [ha] using hk)

theorem lookupStatus_state_eq {t2 : StatusTracker} {image_id : Nat} {s : String}
    (hfind : ∃ e2, (t2.statuses.find? (fun e => e.1 == image_id)) = some e2 ∧
      e2.2.state = s) :
    (lookupStatus t2 image_id).map (fun st => st.state) = some s := by
  obtain ⟨e2, h1, h2⟩ := hfind
  unfold lookupStatus
  rw [h1]
  simp [h2]

/-- C4 amended: `update_status` applies any requested valid state
unconditionally — for every tracker that tracks `image_id` and every
recognised state `s`, the call succeeds and afterwards the job's state
is `s`, regardless of the state it was in before (in particular a job
in a terminal state can be set back to pending or processing). -/
theorem C4_update_status_applies_requested_state (t : StatusTracker) (image_id : Nat)
    (s : String) (msg path : Option String) (now : Nat)
    (hk : (t.statuses.any (fun e => e.1 == image_id)) = true)
    (hv : (validStates.contains s) = true) :
    ∃ t2, t.update_status image_id s msg path now = .ok t2 ∧
      (lookupStatus t2 image_id).map (fun st => st.state) = some s := by
  rw [update_status_eq t image_id s msg path now hk hv]
  refine ⟨_, rfl, ?_⟩
  apply lookupStatus_state_eq
  split
  · exact find_map_updEntry t.statuses image_id s msg path now hk
  · exact find_map_updEntry t.statuses image_id s msg path now hk

/-- Witness for the amended C4 at the concrete completed job. -/
theorem C4_update_status_applies_requested_state_witness :
    ∃ t2, c4_completed.update_status 1 "pending" none none 2 = .ok t2 ∧
      (lookupStatus t2 1).map (fun st => st.state) = some "pending" :=
  C4_update_status_applies_requested_state c4_completed 1 "pending" none none 2
    (by decide) (by decide)

/-! ## Embedding of `batch_processing/memory/memory_manager.py` -/

/-- Embeds `MemoryManager.estimate_memory_required` (lines 122-154).
The source computes `int(total * 1.5)` with the float literal `1.5`;
since the integer `total` here is always even, `total * 1.5` is an exact
integer and `int` truncates nothing, so the multiplication is embedded
as the exact `(total * 3) / 2`. -/
def estimate_memory_required (width height : Nat) : Nat :=
  let pixels := width * height
  let input_memory := pixels * 3 * 4
  let latent_memory := (pixels / 64) * 4 * 4
  let activation_memory := latent_memory * 2
  let reference_memory := input_memory * 4
  ((input_memory + latent_memory + activation_memory + reference_memory) * 3) / 2

/-- The closed form named by the claim:
`int((w*h*12 + (w*h // 64)*16*3 + w*h*48) * 1.5)`, with the exact
`* 1.5` embedded as `* 3 / 2` as above. -/
def estimateClaimFormula (width height : Nat) : Nat :=
  ((width * height * 12 + ((width * height) / 64) * 16 * 3 + width * height * 48) * 3) / 2

/-- C10: `estimate_memory_required (w, h)` equals the claim's closed
form, which with exact arithmetic is `90*w*h + 72*((w*h) / 64)`; it is
therefore non-negative and monotone non-decreasing in the pixel count.
(The definition is a pure function of the dimensions: it reads and
mutates no processor state.) -/
theorem C10_estimate_memory_closed_form (width height : Nat) :
    estimate_memory_required width height = estimateClaimFormula width height ∧
    estimate_memory_required width height =
      90 * (width * height) + 72 * ((width * height) / 64) ∧
    (∀ width2 height2 : Nat, width * height ≤ width2 * height2 →
      estimate_memory_required width height ≤ estimate_memory_required width2 height2) := by
  have hclosed : ∀ w h : Nat, estimate_memory_required w h =
      90 * (w * h) + 72 * ((w * h) / 64) := by
    intro w h
    show ((w * h * 3 * 4 + (w * h / 64) * 4 * 4 + (w * h / 64) * 4 * 4 * 2 +
      w * h * 3 * 4 * 4) * 3) / 2 = 90 * (w * h) + 72 * ((w * h) / 64)
    omega
  refine ⟨?_, hclosed width height, ?_⟩
  · unfold estimateClaimFormula
    rw [hclosed]
    omega
  · intro width2 height2 hle
    rw [hclosed, hclosed]
    have hdiv : (width * height) / 64 ≤ (width2 * height2) / 64 :=
      Nat.div_le_div_right hle
    omega

/-- Witness for C10: the monotonicity hypothesis discharged at the
concrete dimensions (2,3) and (4,5). -/
theorem C10_estimate_memory_closed_form_witness :
    estimate_memory_required 2 3 ≤ estimate_memory_required 4 5 :=
  (C10_estimate_memory_closed_form 2 3).2.2 4 5 (by decide)

/-! ## Embedding of `batch_processing/processor.py`

The external collaborators are modelled as oracles: `render` stands for
the colorization pipeline invoked by `process_single_image` (`none` =
the pipeline produced and saved an output, `some msg` = some stage
raised `ImageProcessingError msg`); `validate` stands for
`validate_image_file` and `mkOutput` for `create_output_path` composed
with `handle_filename_collision`.  Control calls (`pause_processing`,
`cancel_processing`) arriving from a different execution context than
the loop are modelled by a schedule `sched : Nat → List Ctl` giving the
calls delivered before iteration `i`'s pause/cancel checks — matching
the code, which polls the flags once per loop iteration, between
jobs. -/

/-- An external control call that can arrive while the loop runs. -/
inductive Ctl
  | pauseCall
  | cancelCall
deriving Repr, DecidableEq

/-- The `_preview_result` dict captured by the preview branch of
`start_processing`. -/
structure PreviewResult where
  output_path : Option String
  input_path : String
  status : Option ProcessingStatus
  error : Option String
  image_id : Nat
deriving Repr, DecidableEq

/-- Embeds `BatchProcessor`: the queue, the tracker, the control flags
and the preview state.  Of `BatchConfig` only `preview_mode` influences
the orchestration logic, so it is the one config field kept.  `clock`
models the `time.time()` tick supply and `uuid_counter` the
`uuid.uuid4()` supply. -/
structure BatchProcessor where
  preview_mode : Bool
  queue : ImageQueue
  status_tracker : StatusTracker
  paused : Bool := false
  cancelled : Bool := false
  processing : Bool := false
  preview_processed : Bool := false
  preview_approved : Bool := false
  preview_result : Option PreviewResult := none
  clock : Nat := 0
  uuid_counter : Nat := 0
deriving Repr, DecidableEq

/-- An `update_status` call wrapped in `try/except` (as every status
update inside `process_single_image` is): failures are swallowed and
processing continues.  The embedded `time.time()` call reads `p.clock`
and advances it. -/
def tryUpdateStatus (p : BatchProcessor) (image_id : Nat) (s : String)
    (msg path : Option String) : BatchProcessor :=
  match p.status_tracker.update_status image_id s msg path p.clock with
  | .ok t => { p with clock := p.clock + 1, status_tracker := t }
  | .error _ => { p with clock := p.clock + 1 }

/-- Embeds `BatchProcessor.process_single_image`: mark the job
processing, invoke the pipeline (the `render` oracle), then mark it
completed with its output path, or failed with the error message.
Returns `none` if the call returns normally and `some msg` if it raises
`ImageProcessingError msg` (every exception escaping this method is an
`ImageProcessingError`: unexpected ones are wrapped and re-raised). -/
def BatchProcessor.process_single_image (render : ImageQueueItem → Option String)
    (p : BatchProcessor) (item : ImageQueueItem) : BatchProcessor × Option String :=
  match render item with
  | none =>
    (tryUpdateStatus (tryUpdateStatus p item.id "processing" none none)
      item.id "completed" none (some item.output_path), none)
  | some msg =>
    (tryUpdateStatus (tryUpdateStatus p item.id "processing" none none)
      item.id "failed" (some msg) none, some msg)

/-- Embeds `BatchProcessor.pause_processing`: warn-and-return unless a
batch is processing and not already paused. -/
def BatchProcessor.pause_processing (p : BatchProcessor) : BatchProcessor :=
  if p.processing = false then p
  else if p.paused = true then p
  else { p with paused := true }

/-- Embeds `BatchProcessor.cancel_processing`: warn-and-return unless a
batch is processing and not already cancelled. -/
def BatchProcessor.cancel_processing (p : BatchProcessor) : BatchProcessor :=
  if p.processing = false then p
  else if p.cancelled = true then p
  else { p with cancelled := true }

def applyCtl (p : BatchProcessor) : Ctl → BatchProcessor
  | .pauseCall => p.pause_processing
  | .cancelCall => p.cancel_processing

def applyCtls (p : BatchProcessor) (cs : List Ctl) : BatchProcessor :=
  cs.foldl applyCtl p

/-- The cancellation drain (processor.py lines 622-629): dequeue every
remaining item and mark it cancelled.  The `update_status` call here is
not wrapped in `try`, so an error would propagate (second component). -/
def BatchProcessor.drainCancelled : Nat → BatchProcessor → BatchProcessor × Option String
  | 0, p => (p, none)
  | fuel + 1, p =>
    if p.queue.size = 0 then (p, none)
    else
      match p.queue.dequeue with
      | (none, q) => BatchProcessor.drainCancelled fuel { p with queue := q }
      | (some item, q) =>
        match p.status_tracker.update_status item.id "cancelled" none none p.clock with
        | .ok t => BatchProcessor.drainCancelled fuel
            { p with queue := q, clock := p.clock + 1, status_tracker := t }
        | .error e => ({ p with queue := q, clock := p.clock + 1 }, some e)

/-- The sequential processing loop shared verbatim by
`start_processing` (lines 613-691) and `_continue_after_preview`
(lines 929-1004): while the queue is non-empty, honour pause, honour
cancellation by draining, else dequeue and process one item,
continuing on per-item failure.  `fuel` is the queue size at entry;
`iter` indexes iterations for the external-call schedule. -/
def BatchProcessor.runLoop (render : ImageQueueItem → Option String)
    (sched : Nat → List Ctl) :
    Nat → Nat → BatchProcessor → BatchProcessor × Option String
  | 0, _, p => (p, none)
  | fuel + 1, iter, p =>
    if p.queue.size = 0 then (p, none)
    else
      let p1 := applyCtls p (sched iter)
      if p1.paused = true then (p1, none)
      else if p1.cancelled = true then BatchProcessor.drainCancelled p1.queue.size p1
      else
        match p1.queue.dequeue with
        | (none, q) => ({ p1 with queue := q }, none)
        | (some item, q) =>
          match BatchProcessor.process_single_image render { p1 with queue := q } item with
          | (p2, _) => BatchProcessor.runLoop render sched fuel (iter + 1) p2

/-- The `finally` clause of `start_processing` (lines 725-728): clear
the processing flag unless a preview is waiting for approval. -/
def BatchProcessor.startFinally (p : BatchProcessor) : BatchProcessor :=
  if p.preview_mode = true ∧ p.preview_processed = true ∧ p.preview_approved = false then p
  else { p with processing := false }

/-- Embeds `BatchProcessor.is_waiting_for_preview_approval`. -/
def BatchProcessor.is_waiting_for_preview_approval (p : BatchProcessor) : Bool :=
  p.preview_processed && !p.preview_approved

/-- Embeds `BatchProcessor.start_processing`.  Returns the new state
and `none` on normal return, or `some msg` when the call raises
(`BatchProcessingError` on an empty queue — raised before any state is
touched). -/
def BatchProcessor.start_processing (render : ImageQueueItem → Option String)
    (sched : Nat → List Ctl) (p : BatchProcessor) : BatchProcessor × Option String :=
  if p.queue.size = 0 then (p, some "Cannot start processing: queue is empty")
  else if p.processing = true then (p, none)
  else if p.preview_mode = true ∧ p.preview_processed = true ∧ p.preview_approved = false then
    (p, none)
  else
    let p1 : BatchProcessor := { p with processing := true, cancelled := false, paused := false }
    if p1.preview_mode = true ∧ p1.preview_processed = false then
      -- preview branch: process exactly one image, capture the result,
      -- and return control to the caller (through the finally clause)
      match p1.queue.dequeue with
      | (none, q) => (BatchProcessor.startFinally { p1 with queue := q }, none)
      | (some item, q) =>
        match BatchProcessor.process_single_image render { p1 with queue := q } item with
        | (p2, err) =>
          let result : PreviewResult :=
            { output_path := if err = none then some item.output_path else none,
              input_path := item.input_path,
              status := lookupStatus p2.status_tracker item.id,
              error := err,
              image_id := item.id }
          (BatchProcessor.startFinally
            { p2 with preview_result := some result, preview_processed := true }, none)
    else
      match BatchProcessor.runLoop render sched p1.queue.size 0 p1 with
      | (p2, exc) => (BatchProcessor.startFinally p2, exc)

/-- Embeds `BatchProcessor._continue_after_preview`.  Note: the
empty-queue early return happens before the `try/finally`, so in that
case the processing flag is left as it was. -/
def BatchProcessor.continue_after_preview (render : ImageQueueItem → Option String)
    (sched : Nat → List Ctl) (p : BatchProcessor) : BatchProcessor × Option String :=
  if p.queue.size = 0 then (p, none)
  else
    match BatchProcessor.runLoop render sched p.queue.size 0 p with
    | (p2, exc) => ({ p2 with processing := false }, exc)

/-- Embeds `BatchProcessor.approve_preview`. -/
def BatchProcessor.approve_preview (render : ImageQueueItem → Option String)
    (sched : Nat → List Ctl) (p : BatchProcessor) : BatchProcessor × Option String :=
  if p.preview_mode = false then
    (p, some "Cannot approve preview: preview mode is not enabled")
  else if p.preview_processed = false then
    (p, some "Cannot approve preview: no preview has been processed")
  else if p.preview_approved = true then (p, none)
  else
    BatchProcessor.continue_after_preview render sched { p with preview_approved := true }

/-- Embeds `BatchProcessor.reject_preview`: reset the three preview
fields and nothing else — in particular the processing flag is left
untouched, exactly as in the source. -/
def BatchProcessor.reject_preview (p : BatchProcessor) : BatchProcessor × Option String :=
  if p.preview_mode = false then
    (p, some "Cannot reject preview: preview mode is not enabled")
  else if p.preview_processed = false then
    (p, some "Cannot reject preview: no preview has been processed")
  else
    let p2 : BatchProcessor :=
      { p with preview_processed := false, preview_approved := false, preview_result := none }
    (p2, none)

/-- Embeds `BatchProcessor.resume_processing`: warn-and-return when not
paused, else clear the pause flag and re-enter `start_processing`. -/
def BatchProcessor.resume_processing (render : ImageQueueItem → Option String)
    (sched : Nat → List Ctl) (p : BatchProcessor) : BatchProcessor × Option String :=
  if p.paused = false then (p, none)
  else BatchProcessor.start_processing render sched { p with paused := false }

/-- The per-path loop of `add_images` (lines 117-163): skip paths that
fail validation; for valid ones draw a fresh id, build the output path,
enqueue the item and register it with the tracker (an exception from
`add_image` is caught and counted invalid — with the item already
enqueued).  Returns the processor plus the valid and invalid counts. -/
def addImagesLoop (validate : String → Bool) (mkOutput : String → String) :
    List String → BatchProcessor → Nat → Nat → BatchProcessor × Nat × Nat
  | [], p, valid_count, invalid_count => (p, valid_count, invalid_count)
  | path :: rest, p, valid_count, invalid_count =>
    if validate path = false then
      addImagesLoop validate mkOutput rest p valid_count (invalid_count + 1)
    else
      let image_id := p.uuid_counter
      let p1 : BatchProcessor := { p with uuid_counter := p.uuid_counter + 1 }
      let item : ImageQueueItem :=
        { id := image_id, input_path := path, output_path := mkOutput path, priority := 0 }
      let p2 : BatchProcessor := { p1 with queue := p1.queue.enqueue item }
      match p2.status_tracker.add_image image_id p2.clock with
      | .ok t =>
        addImagesLoop validate mkOutput rest
          { p2 with clock := p2.clock + 1, status_tracker := t }
          (valid_count + 1) invalid_count
      | .error _ =>
        addImagesLoop validate mkOutput rest { p2 with clock := p2.clock + 1 }
          valid_count (invalid_count + 1)

/-- Embeds `BatchProcessor.add_images`: raise `ValidationError` on an
empty input list (before touching anything), run the per-path loop, and
raise `ValidationError` when no path survived validation. -/
def BatchProcessor.add_images (validate : String → Bool) (mkOutput : String → String)
    (p : BatchProcessor) (image_paths : List String) : BatchProcessor × Option String :=
  if image_paths = [] then
    (p, some "Cannot add images: image_paths list is empty")
  else
    match addImagesLoop validate mkOutput image_paths p 0 0 with
    | (p2, valid_count, _invalid_count) =>
      if valid_count = 0 then (p2, some "No valid images added.")
      else (p2, none)

/-- The schedule with no external control calls. -/
def noSched : Nat → List Ctl := fun _ => []

/-- The schedule delivering a single `cancel_processing` call right
before iteration `k`'s flag checks. -/
def cancelAt (k : Nat) : Nat → List Ctl :=
  fun i => if i = k then [Ctl.cancelCall] else []

/-! ### C8: control calls are no-ops outside their active state -/

/-- C8: when no batch is processing, `pause_processing` and
`cancel_processing` return the processor state entirely unchanged (a
warning is logged, nothing is mutated); when the pause flag is not set,
`resume_processing` likewise returns the state unchanged with no
exception. -/
theorem C8_control_noops (p : BatchProcessor) (render : ImageQueueItem → Option String)
    (sched : Nat → List Ctl) :
    (p.processing = false → p.pause_processing = p ∧ p.cancel_processing = p) ∧
    (p.paused = false → p.resume_processing render sched = (p, none)) := by
  refine ⟨fun h => ⟨?_, ?_⟩, fun h => ?_⟩
  · unfold BatchProcessor.pause_processing
    rw [if_pos h]
  · unfold BatchProcessor.cancel_processing
    rw [if_pos h]
  · unfold BatchProcessor.resume_processing
    rw [if_pos h]

def c8_proc : BatchProcessor :=
  { preview_mode := false, queue := ImageQueue.empty, status_tracker := StatusTracker.empty }

/-- Witness for C8 at a concrete idle processor. -/
theorem C8_control_noops_witness :
    (c8_proc.pause_processing = c8_proc ∧ c8_proc.cancel_processing = c8_proc) ∧
    c8_proc.resume_processing (fun _ => none) noSched = (c8_proc, none) :=
  ⟨(C8_control_noops c8_proc (fun _ => none) noSched).1 rfl,
   (C8_control_noops c8_proc (fun _ => none) noSched).2 rfl⟩

/-! ### C9: setup-time validation errors leave no partial state -/

theorem addImagesLoop_all_invalid (validate : String → Bool) (mkOutput : String → String) :
    ∀ (paths : List String) (p : BatchProcessor) (v i : Nat),
      (∀ path ∈ paths, validate path = false) →
      addImagesLoop validate mkOutput paths p v i = (p, v, i + paths.length) := by
  intro paths
  induction paths with
  | nil =>
    intro p v i h
    simp [addImagesLoop]
  | cons a rest ih =>
    intro p v i h
    have ha : validate a = false := h a (List.mem_cons_self a rest)
    show (if validate a = false then addImagesLoop validate mkOutput rest p v (i + 1)
      else _) = (p, v, i + (a :: rest).length)
    rw [if_pos ha, ih p v (i + 1) (fun x hx => h x (List.mem_cons_of_mem a hx))]
    simp only [Prod.mk.injEq, List.length_cons]
    exact ⟨trivial, trivial, by omega⟩

/-- C9: `add_images` raises `ValidationError` on an empty input list
and when no entry passes validation, in both cases returning the
processor state (queue, tracker, flags, counters) exactly as it was;
`start_processing` on an empty queue raises before mutating anything. -/
theorem C9_setup_errors_leave_no_partial_state (validate : String → Bool)
    (mkOutput : String → String) (render : ImageQueueItem → Option String)
    (sched : Nat → List Ctl) (p : BatchProcessor) (paths : List String) :
    (p.add_images validate mkOutput [] =
      (p, some "Cannot add images: image_paths list is empty")) ∧
    (paths ≠ [] → (∀ path ∈ paths, validate path = false) →
      p.add_images validate mkOutput paths = (p, some "No valid images added.")) ∧
    (p.queue.size = 0 →
      p.start_processing render sched =
        (p, some "Cannot start processing: queue is empty")) := by
  refine ⟨rfl, fun hne hall => ?_, fun hq => ?_⟩
  · unfold BatchProcessor.add_images
    rw [if_neg hne, addImagesLoop_all_invalid validate mkOutput paths p 0 0 hall]
    rfl
  · unfold BatchProcessor.start_processing
    rw [if_pos hq]

def c9_proc : BatchProcessor :=
  { preview_mode := false, queue := ImageQueue.empty, status_tracker := StatusTracker.empty }

/-- Witness for C9: empty list, an all-invalid list, and an empty-queue
start, at concrete inputs. -/
theorem C9_setup_errors_leave_no_partial_state_witness :
    (c9_proc.add_images (fun _ => false) (fun s => s) [] =
      (c9_proc, some "Cannot add images: image_paths list is empty")) ∧
    (c9_proc.add_images (fun _ => false) (fun s => s) ["a.png"] =
      (c9_proc, some "No valid images added.")) ∧
    (c9_proc.start_processing (fun _ => none) noSched =
      (c9_proc, some "Cannot start processing: queue is empty")) :=
  ⟨(C9_setup_errors_leave_no_partial_state (fun _ => false) (fun s => s) (fun _ => none)
      noSched c9_proc ["a.png"]).1,
   (C9_setup_errors_leave_no_partial_state (fun _ => false) (fun s => s) (fun _ => none)
      noSched c9_proc ["a.png"]).2.1 (by decide) (fun _ _ => rfl),
   (C9_setup_errors_leave_no_partial_state (fun _ => false) (fun s => s) (fun _ => none)
      noSched c9_proc ["a.png"]).2.2 rfl⟩

/-! ### C6: rejecting a preview leaves the processing flag set (code bug) -/

def c6_item0 : ImageQueueItem :=
  { id := 0, input_path := "a.png", output_path := "out/a.png", priority := 0 }

def c6_item1 : ImageQueueItem :=
  { id := 1, input_path := "b.png", output_path := "out/b.png", priority := 0 }

def c6_p0 : BatchProcessor :=
  { preview_mode := true,
    queue := { queue := [c6_item0, c6_item1], size := 2 },
    status_tracker :=
      { statuses := [(0, { id := 0, state := "pending" }), (1, { id := 1, state := "pending" })],
        batch_start_time := some 0 },
    clock := 2,
    uuid_counter := 2 }

def c6_renderOk : ImageQueueItem → Option String := fun _ => none

def c6_p1 : BatchProcessor := (c6_p0.start_processing c6_renderOk noSched).1

def c6_p2 : BatchProcessor := (c6_p1.reject_preview).1

/-- C6 evaluation at the failing input: after a preview-mode
`start_processing` and a `reject_preview`, the awaiting-approval state
is indeed cleared, but the processing flag is still set (the `finally`
of `start_processing` deliberately kept it while awaiting approval and
`reject_preview` never clears it), so the subsequent `start_processing`
on the one remaining queued job returns as a warn-and-return no-op with
the whole state unchanged, instead of processing the remaining jobs as
the specification requires. -/
theorem C6_reject_preview_leaves_processing_flag :
    c6_p1.is_waiting_for_preview_approval = true ∧
    c6_p2.is_waiting_for_preview_approval = false ∧
    c6_p2.processing = true ∧
    c6_p2.queue.size = 1 ∧
    c6_p2.start_processing c6_renderOk noSched = (c6_p2, none) :=
  ⟨rfl, rfl, rfl, rfl, rfl⟩

/-! ### The (id, state) projection of a tracker, and shaped updates

The loop proofs track only the `(id, state)` projection of the tracker
together with the batch-end stamp; timestamps and messages do not
influence any claimed property. -/

/-- The tracker's entries project, in order, to the given id/state
association list. -/
def TrackerStates (t : StatusTracker) (f : List (Nat × String)) : Prop :=
  t.statuses.map (fun e => (e.1, e.2.state)) = f

/-- State counts over a projected list. -/
def countSt (f : List (Nat × String)) (s : String) : Nat :=
  f.countP (fun e => e.2 == s)

theorem countState_eq_countSt {t : StatusTracker} {f : List (Nat × String)}
    (ht : TrackerStates t f) (s : String) :
    countState t.statuses s = countSt f s := by
  rw [← ht]
  unfold countState countSt
  rw [List.countP_map]
  rfl

theorem length_eq_of_trackerStates {t : StatusTracker} {f : List (Nat × String)}
    (ht : TrackerStates t f) : t.statuses.length = f.length := by
  rw [← ht, List.length_map]

theorem allValid_of_trackerStates {t : StatusTracker} {f : List (Nat × String)}
    (ht : TrackerStates t f) (hf : ∀ e ∈ f, e.2 ∈ validStates) :
    AllValidStates t := by
  intro e he
  exact hf (e.1, e.2.state) (by rw [← ht]; exact List.mem_map_of_mem _ he)

theorem contains_of_valid {s : String} (h : s ∈ validStates) :
    validStates.contains s = true := by
  rw [validStates] at h ⊢
  simpa using h

theorem any_key_of_trackerStates {t : StatusTracker} {f : List (Nat × String)} {k : Nat}
    (ht : TrackerStates t f) (hk : k ∈ f.map Prod.fst) :
    (t.statuses.any (fun e => e.1 == k)) = true := by
  rw [← ht, List.map_map] at hk
  rcases List.mem_map.mp hk with ⟨e, he, hke⟩
  simp only [List.any_eq_true]
  exact ⟨e, he, by simp [Function.comp] at hke; simp [hke]⟩

theorem is_complete_iff_counts (t : StatusTracker) (hvalid : AllValidStates t) :
    (t.get_summary.is_complete = true) ↔
      (countState t.statuses "pending" = 0 ∧ countState t.statuses "processing" = 0) := by
  unfold StatusSummary.is_complete
  rw [get_summary_completed, get_summary_failed, get_summary_cancelled, get_summary_total]
  have hp := counts_partition t.statuses hvalid
  simp only [beq_iff_eq]
  constructor
  · intro h
    constructor <;> omega
  · intro h
    omega

theorem map_updEntry_states (l : List (Nat × ProcessingStatus)) (k : Nat) (s : String)
    (msg path : Option String) (now : Nat) :
    (l.map (updEntry k s msg path now)).map (fun e => (e.1, e.2.state)) =
      (l.map (fun e => (e.1, e.2.state))).map
        (fun e => if e.1 = k then (e.1, s) else e) := by
  induction l with
  | nil => rfl
  | cons a tl ih =>
    simp only [List.map_cons, ih]
    congr 1
    by_cases ha : a.1 = k <;> simp [updEntry_fst, updEntry_state, ha]

theorem map_setKey_id (k : Nat) (s : String) :
    ∀ (l : List (Nat × String)), (∀ e ∈ l, e.1 ≠ k) →
      l.map (fun e => if e.1 = k then (e.1, s) else e) = l := by
  intro l
  induction l with
  | nil => intro h; rfl
  | cons a tl ih =>
    intro h
    rw [List.map_cons, if_neg (h a (List.mem_cons_self a tl)),
      ih (fun e he => h e (List.mem_cons_of_mem a he))]

theorem map_setKey_append (l1 l2 : List (Nat × String)) (k : Nat) (s0 s : String)
    (h1 : ∀ e ∈ l1, e.1 ≠ k) (h2 : ∀ e ∈ l2, e.1 ≠ k) :
    (l1 ++ (k, s0) :: l2).map (fun e => if e.1 = k then (e.1, s) else e) =
      l1 ++ (k, s) :: l2 := by
  rw [List.map_append, List.map_cons, map_setKey_id k s l1 h1, map_setKey_id k s l2 h2,
    if_pos rfl]

theorem countSt_ne_zero_of_mem {f : List (Nat × String)} {e : Nat × String}
    (he : e ∈ f) (s : String) (hs : e.2 = s) : countSt f s ≠ 0 := by
  unfold countSt
  have : 0 < f.countP (fun e => e.2 == s) :=
    List.countP_pos_iff.mpr ⟨e, he, by simp [hs]⟩
  omega

theorem countSt_eq_zero {f : List (Nat × String)} {s : String}
    (h : ∀ e ∈ f, e.2 ≠ s) : countSt f s = 0 := by
  unfold countSt
  rw [List.countP_eq_zero]
  intro e he
  simp [h e he]

theorem terminal_cases {s : String} (h : s ∈ terminalStates) :
    s = "completed" ∨ s = "failed" ∨ s = "cancelled" := by
  simpa [terminalStates] using h

theorem terminal_ne_pending {s : String} (h : s ∈ terminalStates) : s ≠ "pending" := by
  rcases terminal_cases h with rfl | rfl | rfl <;> decide

theorem terminal_ne_processing {s : String} (h : s ∈ terminalStates) :
    s ≠ "processing" := by
  rcases terminal_cases h with rfl | rfl | rfl <;> decide

theorem terminal_valid {s : String} (h : s ∈ terminalStates) : s ∈ validStates := by
  rcases terminal_cases h with rfl | rfl | rfl <;> simp [validStates]

/-- The effect of one successful `update_status` on a shaped tracker:
the entry for `k` switches to the requested state and `_batch_end_time`
is stamped exactly when the new projection has no pending and no
processing entries (and the stamp was not already set). -/
theorem update_shape (t : StatusTracker) (k : Nat) (snew : String)
    (msg path : Option String) (now : Nat)
    (donePart restPart : List (Nat × String)) (s0 : String)
    (ht : TrackerStates t (donePart ++ (k, s0) :: restPart))
    (hvalidnew : snew ∈ validStates)
    (hvalid : ∀ e ∈ donePart ++ (k, s0) :: restPart, e.2 ∈ validStates)
    (hnodup : ((donePart ++ (k, s0) :: restPart).map Prod.fst).Nodup) :
    ∃ t2, t.update_status k snew msg path now = .ok t2 ∧
      TrackerStates t2 (donePart ++ (k, snew) :: restPart) ∧
      t2.batch_end_time =
        (if (countSt (donePart ++ (k, snew) :: restPart) "pending" = 0 ∧
             countSt (donePart ++ (k, snew) :: restPart) "processing" = 0) ∧
            t.batch_end_time = none
         then some now else t.batch_end_time) := by
  have hkmem : k ∈ (donePart ++ (k, s0) :: restPart).map Prod.fst := by simp
  have hany := any_key_of_trackerStates ht hkmem
  have hcont := contains_of_valid hvalidnew
  have hmapfst : ((donePart ++ (k, s0) :: restPart).map Prod.fst) =
      donePart.map Prod.fst ++ k :: restPart.map Prod.fst := by simp
  rw [hmapfst] at hnodup
  rcases List.nodup_append.mp hnodup with ⟨-, hn2, hdisj⟩
  have hkey1 : ∀ e ∈ donePart, e.1 ≠ k := by
    intro e he heq
    exact hdisj (List.mem_map_of_mem _ he) (heq ▸ List.mem_cons_self k _)
  have hkey2 : ∀ e ∈ restPart, e.1 ≠ k := by
    intro e he heq
    rcases List.nodup_cons.mp hn2 with ⟨hknotin, -⟩
    exact hknotin (heq ▸ List.mem_map_of_mem _ he)
  have hupd : TrackerStates (updTracker t k snew msg path now)
      (donePart ++ (k, snew) :: restPart) := by
    show (t.statuses.map (updEntry k snew msg path now)).map (fun e => (e.1, e.2.state)) = _
    rw [map_updEntry_states]
    rw [show t.statuses.map (fun e => (e.1, e.2.state)) = donePart ++ (k, s0) :: restPart
      from ht]
    exact map_setKey_append donePart restPart k s0 snew hkey1 hkey2
  have hvalid2 : ∀ e ∈ donePart ++ (k, snew) :: restPart, e.2 ∈ validStates := by
    intro e he
    rcases List.mem_append.mp he with he | he
    · exact hvalid e (List.mem_append.mpr (Or.inl he))
    · rcases List.mem_cons.mp he with rfl | he
      · exact hvalidnew
      · exact hvalid e (List.mem_append.mpr (Or.inr (List.mem_cons_of_mem _ he)))
  have hcompl : ((updTracker t k snew msg path now).get_summary.is_complete = true) ↔
      (countSt (donePart ++ (k, snew) :: restPart) "pending" = 0 ∧
       countSt (donePart ++ (k, snew) :: restPart) "processing" = 0) := by
    rw [is_complete_iff_counts _ (allValid_of_trackerStates hupd hvalid2),
      countState_eq_countSt hupd, countState_eq_countSt hupd]
  have hendupd : (updTracker t k snew msg path now).batch_end_time = t.batch_end_time := rfl
  rw [update_status_eq t k snew msg path now hany hcont]
  by_cases hcond : (countSt (donePart ++ (k, snew) :: restPart) "pending" = 0 ∧
      countSt (donePart ++ (k, snew) :: restPart) "processing" = 0) ∧
      t.batch_end_time = none
  · rw [if_pos (by exact ⟨hcompl.mpr hcond.1, hendupd ▸ hcond.2⟩)]
    refine ⟨_, rfl, hupd, ?_⟩
    rw [if_pos hcond]
  · rw [if_neg (by
      intro hc
      exact hcond ⟨hcompl.mp hc.1, hendupd ▸ hc.2⟩)]
    refine ⟨_, rfl, hupd, ?_⟩
    rw [if_neg hcond, hendupd]

/-! ### The shape of one processed job -/

/-- The terminal state a job ends in, as dictated by the renderer
oracle. -/
def doneState (render : ImageQueueItem → Option String) (it : ImageQueueItem) : String :=
  match render it with
  | none => "completed"
  | some _ => "failed"

theorem doneState_none {render : ImageQueueItem → Option String} {it : ImageQueueItem}
    (h : render it = none) : doneState render it = "completed" := by
  unfold doneState
  rw [h]

theorem doneState_some {render : ImageQueueItem → Option String} {it : ImageQueueItem}
    {msg : String} (h : render it = some msg) : doneState render it = "failed" := by
  unfold doneState
  rw [h]

theorem doneState_terminal (render : ImageQueueItem → Option String)
    (it : ImageQueueItem) : doneState render it ∈ terminalStates := by
  unfold doneState
  cases render it <;> simp [terminalStates]

theorem counts_zero_of_terminal (f : List (Nat × String))
    (h : ∀ e ∈ f, e.2 ∈ terminalStates) :
    countSt f "pending" = 0 ∧ countSt f "processing" = 0 :=
  ⟨countSt_eq_zero (fun e he => terminal_ne_pending (h e he)),
   countSt_eq_zero (fun e he => terminal_ne_processing (h e he))⟩

theorem tryUpdateStatus_eq_of_ok (p : BatchProcessor) (k : Nat) (s : String)
    (msg path : Option String) (t2 : StatusTracker)
    (h : p.status_tracker.update_status k s msg path p.clock = .ok t2) :
    tryUpdateStatus p k s msg path =
      { p with clock := p.clock + 1, status_tracker := t2 } := by
  unfold tryUpdateStatus
  rw [h]

/-- Processing one job on a shaped processor: the job's entry moves
`pending → processing → doneState`, both inner updates succeed, the
exception (if any) is exactly the renderer's, only the clock and
tracker change, and the batch-end stamp is set iff this was the last
non-terminal entry. -/
theorem process_single_image_shape (render : ImageQueueItem → Option String)
    (p : BatchProcessor) (it : ImageQueueItem)
    (donePart restPart : List (Nat × String))
    (ht : TrackerStates p.status_tracker (donePart ++ (it.id, "pending") :: restPart))
    (hdone : ∀ e ∈ donePart, e.2 ∈ terminalStates)
    (hrest : ∀ e ∈ restPart, e.2 = "pending")
    (hnodup : ((donePart ++ (it.id, "pending") :: restPart).map Prod.fst).Nodup)
    (hend : p.status_tracker.batch_end_time = none) :
    ∃ tb, BatchProcessor.process_single_image render p it =
        ({ p with clock := p.clock + 2, status_tracker := tb }, render it) ∧
      TrackerStates tb (donePart ++ (it.id, doneState render it) :: restPart) ∧
      (restPart = [] → tb.batch_end_time ≠ none) ∧
      (restPart ≠ [] → tb.batch_end_time = none) := by
  have hvalid0 : ∀ e ∈ donePart ++ (it.id, "pending") :: restPart, e.2 ∈ validStates := by
    intro e he
    rcases List.mem_append.mp he with he | he
    · exact terminal_valid (hdone e he)
    · rcases List.mem_cons.mp he with rfl | he
      · simp [validStates]
      · rw [hrest e he]
        simp [validStates]
  obtain ⟨ta, hta_ok, hta_states, hta_end⟩ :=
    update_shape p.status_tracker it.id "processing" none none p.clock donePart restPart
      "pending" ht (by simp [validStates]) hvalid0 hnodup
  have hta_end2 : ta.batch_end_time = none := by
    rw [hta_end, if_neg, hend]
    intro hc
    exact countSt_ne_zero_of_mem
      (List.mem_append.mpr (Or.inr (List.mem_cons_self _ _))) "processing" rfl hc.1.2
  have hstep1 := tryUpdateStatus_eq_of_ok p it.id "processing" none none ta hta_ok
  have hnodup2 : ((donePart ++ (it.id, "processing") :: restPart).map Prod.fst).Nodup := by
    simpa using hnodup
  have hvalid1 : ∀ e ∈ donePart ++ (it.id, "processing") :: restPart, e.2 ∈ validStates := by
    intro e he
    rcases List.mem_append.mp he with he | he
    · exact terminal_valid (hdone e he)
    · rcases List.mem_cons.mp he with rfl | he
      · simp [validStates]
      · rw [hrest e he]
        simp [validStates]
  -- common facts for the terminal update, parameterised over the state
  have hterm : ∀ s2 ∈ terminalStates, ∀ (msg path : Option String),
      ∃ tb, ta.update_status it.id s2 msg path (p.clock + 1) = .ok tb ∧
        TrackerStates tb (donePart ++ (it.id, s2) :: restPart) ∧
        (restPart = [] → tb.batch_end_time ≠ none) ∧
        (restPart ≠ [] → tb.batch_end_time = none) := by
    intro s2 hs2 msg path
    obtain ⟨tb, htb_ok, htb_states, htb_end⟩ :=
      update_shape ta it.id s2 msg path (p.clock + 1) donePart restPart
        "processing" hta_states (terminal_valid hs2) hvalid1 hnodup2
    refine ⟨tb, htb_ok, htb_states, ?_, ?_⟩
    · intro hnil
      subst hnil
      have hallterm : ∀ e ∈ donePart ++ [(it.id, s2)], e.2 ∈ terminalStates := by
        intro e he
        rcases List.mem_append.mp he with he | he
        · exact hdone e he
        · rcases List.mem_cons.mp he with rfl | he
          · exact hs2
          · simp at he
      rw [htb_end, if_pos ⟨counts_zero_of_terminal _ hallterm, hta_end2⟩]
      simp
    · intro hne
      rcases List.exists_mem_of_ne_nil restPart hne with ⟨e0, he0⟩
      rw [htb_end, if_neg, hta_end2]
      intro hc
      exact countSt_ne_zero_of_mem
        (List.mem_append.mpr (Or.inr (List.mem_cons_of_mem _ he0)))
        "pending" (hrest e0 he0) hc.1.1
  cases hr : render it with
  | none =>
    obtain ⟨tb, htb_ok, htb_states, htb1, htb2⟩ :=
      hterm "completed" (by simp [terminalStates]) none (some it.output_path)
    have hstep2 := tryUpdateStatus_eq_of_ok
      { p with clock := p.clock + 1, status_tracker := ta }
      it.id "completed" none (some it.output_path) tb htb_ok
    refine ⟨tb, ?_, by rw [doneState_none hr]; exact htb_states, htb1, htb2⟩
    unfold BatchProcessor.process_single_image
    rw [hr, hstep1]
    dsimp only
    rw [hstep2]
  | some msg =>
    obtain ⟨tb, htb_ok, htb_states, htb1, htb2⟩ :=
      hterm "failed" (by simp [terminalStates]) (some msg) none
    have hstep2 := tryUpdateStatus_eq_of_ok
      { p with clock := p.clock + 1, status_tracker := ta }
      it.id "failed" (some msg) none tb htb_ok
    refine ⟨tb, ?_, by rw [doneState_some hr]; exact htb_states, htb1, htb2⟩
    unfold BatchProcessor.process_single_image
    rw [hr, hstep1]
    dsimp only
    rw [hstep2]

/-! ### The processing loop on a shaped processor -/

theorem runLoop_step (render : ImageQueueItem → Option String) (sched : Nat → List Ctl)
    (fuel iter : Nat) (p : BatchProcessor) (hsz : p.queue.size ≠ 0) :
    BatchProcessor.runLoop render sched (fuel + 1) iter p =
      (if (applyCtls p (sched iter)).paused = true then (applyCtls p (sched iter), none)
       else if (applyCtls p (sched iter)).cancelled = true then
         BatchProcessor.drainCancelled (applyCtls p (sched iter)).queue.size
           (applyCtls p (sched iter))
       else
         match (applyCtls p (sched iter)).queue.dequeue with
         | (none, q) => ({ applyCtls p (sched iter) with queue := q }, none)
         | (some item, q) =>
           match BatchProcessor.process_single_image render
               { applyCtls p (sched iter) with queue := q } item with
           | (p2, _) => BatchProcessor.runLoop render sched fuel (iter + 1) p2) := by
  rw [BatchProcessor.runLoop]
  rw [if_neg hsz]

/-- Draining the loop with no external control calls: every remaining
job is processed, ends in the renderer-dictated terminal state, the
queue empties, no exception escapes, and the batch-end stamp is set by
the final job's terminal update. -/
theorem runLoop_noCtl (render : ImageQueueItem → Option String) :
    ∀ (rem : List ImageQueueItem) (donePart : List (Nat × String)) (iter : Nat)
      (p : BatchProcessor),
      p.queue = ⟨rem, rem.length⟩ →
      TrackerStates p.status_tracker
        (donePart ++ rem.map (fun it => (it.id, "pending"))) →
      (∀ e ∈ donePart, e.2 ∈ terminalStates) →
      ((donePart ++ rem.map (fun it => (it.id, "pending"))).map Prod.fst).Nodup →
      (rem = [] → donePart = [] ∨ p.status_tracker.batch_end_time ≠ none) →
      (rem ≠ [] → p.status_tracker.batch_end_time = none) →
      p.paused = false → p.cancelled = false →
      ∃ p3, BatchProcessor.runLoop render noSched rem.length iter p = (p3, none) ∧
        TrackerStates p3.status_tracker
          (donePart ++ rem.map (fun it => (it.id, doneState render it))) ∧
        p3.queue = ⟨[], 0⟩ ∧
        (donePart = [] ∧ rem = [] ∨ p3.status_tracker.batch_end_time ≠ none) ∧
        p3.paused = false ∧ p3.cancelled = false ∧ p3.processing = p.processing ∧
        p3.preview_mode = p.preview_mode ∧ p3.preview_processed = p.preview_processed ∧
        p3.preview_approved = p.preview_approved ∧
        p3.preview_result = p.preview_result := by
  intro rem
  induction rem with
  | nil =>
    intro donePart iter p hq ht hdone hnodup hend1 hend2 hp hc
    refine ⟨p, rfl, by simpa using ht, hq, ?_, hp, hc, rfl, rfl, rfl, rfl, rfl⟩
    rcases hend1 rfl with h | h
    · exact Or.inl ⟨h, rfl⟩
    · exact Or.inr h
  | cons it rest ih =>
    intro donePart iter p hq ht hdone hnodup hend1 hend2 hp hc
    have hend0 : p.status_tracker.batch_end_time = none := hend2 (by simp)
    obtain ⟨tb, hpsi, htb_states, htb1, htb2⟩ :=
      process_single_image_shape render { p with queue := ⟨rest, rest.length⟩ } it
        donePart (rest.map fun it2 => (it2.id, "pending"))
        (by simpa using ht) hdone (by simp) (by simpa using hnodup) hend0
    have hsz : p.queue.size ≠ 0 := by rw [hq]; simp
    have hstep := runLoop_step render noSched rest.length iter p hsz
    have happ : applyCtls p (noSched iter) = p := rfl
    rw [happ, if_neg (by simp [hp]), if_neg (by simp [hc])] at hstep
    have hdeq : p.queue.dequeue = (some it, ⟨rest, rest.length⟩) := by
      rw [hq]
      rfl
    rw [hdeq] at hstep
    dsimp only at hstep
    rw [hpsi] at hstep
    dsimp only at hstep
    -- recurse on the rest of the queue
    obtain ⟨p3, hloop3, hstates3, hqueue3, hend3, hp3, hc3, hproc3, hpm3, hpp3, hpa3, hpr3⟩ :=
      ih (donePart ++ [(it.id, doneState render it)]) (iter + 1)
        { p with queue := ⟨rest, rest.length⟩, clock := p.clock + 2, status_tracker := tb }
        rfl
        (by rw [List.append_assoc, List.singleton_append]; exact htb_states)
        (by
          intro e he
          rcases List.mem_append.mp he with he | he
          · exact hdone e he
          · rcases List.mem_cons.mp he with rfl | he
            · exact doneState_terminal render it
            · simp at he)
        (by simpa using hnodup)
        (by
          intro hrest_nil
          refine Or.inr (htb1 ?_)
          rw [hrest_nil]
          rfl)
        (by
          intro hrest_ne
          refine htb2 ?_
          simpa using hrest_ne)
        hp hc
    refine ⟨p3, ?_, ?_, hqueue3, ?_, hp3, hc3, hproc3, hpm3, hpp3, hpa3, hpr3⟩
    · show BatchProcessor.runLoop render noSched (rest.length + 1) iter p = (p3, none)
      rw [hstep]
      exact hloop3
    · rw [List.append_assoc, List.singleton_append] at hstates3
      simpa using hstates3
    · rcases hend3 with ⟨h1, -⟩ | h
      · exact absurd h1 (by simp)
      · exact Or.inr h

/-! ### C3: one failing job does not abort the batch -/

/-- The processor state right after a successful `add_images`: the
batch items queued in order with matching size, every item tracked as
pending (in the same order), distinct ids, no batch-end stamp, and no
control flag set. -/
def ReadyToStart (p : BatchProcessor) (items : List ImageQueueItem) : Prop :=
  p.queue = ⟨items, items.length⟩ ∧
  TrackerStates p.status_tracker (items.map (fun it => (it.id, "pending"))) ∧
  ((items.map (fun it => (it.id, "pending"))).map Prod.fst).Nodup ∧
  p.status_tracker.batch_end_time = none ∧
  p.processing = false ∧ p.paused = false ∧ p.cancelled = false ∧
  p.preview_processed = false ∧ p.preview_approved = false

theorem countSt_doneState_failed (render : ImageQueueItem → Option String)
    (items : List ImageQueueItem) :
    countSt (items.map (fun it => (it.id, doneState render it))) "failed" =
      items.countP (fun it => (render it).isSome) := by
  unfold countSt
  rw [List.countP_map]
  apply List.countP_congr
  intro it _
  unfold doneState
  cases h : render it <;> simp [h]

theorem countSt_doneState_completed (render : ImageQueueItem → Option String)
    (items : List ImageQueueItem) :
    countSt (items.map (fun it => (it.id, doneState render it))) "completed" =
      items.countP (fun it => (render it).isNone) := by
  unfold countSt
  rw [List.countP_map]
  apply List.countP_congr
  intro it _
  unfold doneState
  cases h : render it <;> simp [h]

theorem countSt_doneState_pending (render : ImageQueueItem → Option String)
    (items : List ImageQueueItem) :
    countSt (items.map (fun it => (it.id, doneState render it))) "pending" = 0 := by
  apply countSt_eq_zero
  intro e he
  rcases List.mem_map.mp he with ⟨it, -, rfl⟩
  exact terminal_ne_pending (doneState_terminal render it)

theorem countSt_doneState_processing (render : ImageQueueItem → Option String)
    (items : List ImageQueueItem) :
    countSt (items.map (fun it => (it.id, doneState render it))) "processing" = 0 := by
  apply countSt_eq_zero
  intro e he
  rcases List.mem_map.mp he with ⟨it, -, rfl⟩
  exact terminal_ne_processing (doneState_terminal render it)

theorem countP_isNone_add_isSome (render : ImageQueueItem → Option String)
    (items : List ImageQueueItem) :
    items.countP (fun it => (render it).isNone) +
      items.countP (fun it => (render it).isSome) = items.length := by
  induction items with
  | nil => rfl
  | cons a l ih =>
    rw [List.countP_cons, List.countP_cons]
    cases h : render a <;> simp [h] <;> omega

/-- C3: for every batch of `N ≥ 1` jobs in which exactly one job's
rendering step raises and all others succeed (preview mode off, no
pause/cancel request), `start_processing` returns normally with
`failed = 1` and `completed = N - 1`, no job left pending or
processing, the batch-end timestamp set, and the processing flag
cleared — the one failure never aborts the loop. -/
theorem C3_single_failure_isolated (render : ImageQueueItem → Option String)
    (items : List ImageQueueItem) (p : BatchProcessor)
    (hready : ReadyToStart p items) (hpm : p.preview_mode = false)
    (hN : 1 ≤ items.length)
    (hfail : items.countP (fun it => (render it).isSome) = 1) :
    ∃ p2, p.start_processing render noSched = (p2, none) ∧
      p2.status_tracker.get_summary.failed = 1 ∧
      p2.status_tracker.get_summary.completed = items.length - 1 ∧
      p2.status_tracker.get_summary.pending = 0 ∧
      p2.status_tracker.get_summary.processing = 0 ∧
      p2.status_tracker.batch_end_time ≠ none ∧
      p2.processing = false := by
  obtain ⟨hq, ht, hnodup, hend, hproc, hpause, hcancel, hpp, hpa⟩ := hready
  have hsz_ne : p.queue.size ≠ 0 := by
    rw [hq]
    show items.length ≠ 0
    omega
  obtain ⟨p3, hloop, hstates, hqueue3, hend3, hp3, hc3, hproc3, hpm3, hpp3, hpa3, hpr3⟩ :=
    runLoop_noCtl render items []
      0 { p with processing := true, cancelled := false, paused := false }
      (by rw [show ({ p with processing := true, cancelled := false, paused := false } :
          BatchProcessor).queue = p.queue from rfl, hq])
      (by simpa using ht)
      (by intro e he; simp at he)
      (by simpa using hnodup)
      (fun _ => Or.inl rfl)
      (fun _ => hend)
      rfl rfl
  have hend3ne : p3.status_tracker.batch_end_time ≠ none := by
    rcases hend3 with ⟨-, h2⟩ | h
    · rw [h2] at hN
      simp at hN
    · exact h
  have hstates2 : TrackerStates p3.status_tracker
      (items.map (fun it => (it.id, doneState render it))) := by
    simpa using hstates
  refine ⟨{ p3 with processing := false }, ?_, ?_, ?_, ?_, ?_, hend3ne, rfl⟩
  · unfold BatchProcessor.start_processing
    rw [if_neg hsz_ne, if_neg (by simp [hproc]), if_neg (by simp [hpm])]
    dsimp only
    rw [if_neg (by simp [hpm])]
    have hqsz : ({ p with processing := true, cancelled := false, paused := false } :
        BatchProcessor).queue.size = items.length := by
      rw [show ({ p with processing := true, cancelled := false, paused := false } :
        BatchProcessor).queue = p.queue from rfl, hq]
    rw [hqsz, hloop]
    dsimp only
    unfold BatchProcessor.startFinally
    rw [if_neg (by rw [hpm3]; simp [hpm])]
  · show p3.status_tracker.get_summary.failed = 1
    rw [get_summary_failed, countState_eq_countSt hstates2, countSt_doneState_failed, hfail]
  · show p3.status_tracker.get_summary.completed = items.length - 1
    rw [get_summary_completed, countState_eq_countSt hstates2, countSt_doneState_completed]
    have := countP_isNone_add_isSome render items
    omega
  · show p3.status_tracker.get_summary.pending = 0
    rw [get_summary_pending, countState_eq_countSt hstates2, countSt_doneState_pending]
  · show p3.status_tracker.get_summary.processing = 0
    rw [get_summary_processing, countState_eq_countSt hstates2, countSt_doneState_processing]

def c3_item0 : ImageQueueItem :=
  { id := 0, input_path := "a.png", output_path := "out/a.png", priority := 0 }

def c3_item1 : ImageQueueItem :=
  { id := 1, input_path := "b.png", output_path := "out/b.png", priority := 0 }

def c3_render : ImageQueueItem → Option String :=
  fun it => if it.id = 0 then some "render failed" else none

def c3_p0 : BatchProcessor :=
  { preview_mode := false,
    queue := { queue := [c3_item0, c3_item1], size := 2 },
    status_tracker :=
      { statuses := [(0, { id := 0, state := "pending" }), (1, { id := 1, state := "pending" })],
        batch_start_time := some 0 },
    clock := 2,
    uuid_counter := 2 }

/-- Witness for C3: a two-job batch whose first job's renderer raises. -/
theorem C3_single_failure_isolated_witness :
    ∃ p2, c3_p0.start_processing c3_render noSched = (p2, none) ∧
      p2.status_tracker.get_summary.failed = 1 ∧
      p2.status_tracker.get_summary.completed = [c3_item0, c3_item1].length - 1 ∧
      p2.status_tracker.get_summary.pending = 0 ∧
      p2.status_tracker.get_summary.processing = 0 ∧
      p2.status_tracker.batch_end_time ≠ none ∧
      p2.processing = false :=
  C3_single_failure_isolated c3_render [c3_item0, c3_item1] c3_p0
    ⟨rfl, rfl, by decide, rfl, rfl, rfl, rfl, rfl, rfl⟩ rfl
    (by decide) (by decide)

/-! ### C7: cancellation drains the remaining queue -/

theorem countSt_cons (e : Nat × String) (f : List (Nat × String)) (s : String) :
    countSt (e :: f) s = (if e.2 = s then 1 else 0) + countSt f s := by
  unfold countSt
  rw [List.countP_cons]
  by_cases h : e.2 = s <;> simp [h] <;> omega

theorem countSt_cancelled_map (rest : List ImageQueueItem) :
    countSt (rest.map (fun it => (it.id, "cancelled"))) "cancelled" = rest.length := by
  unfold countSt
  rw [List.countP_map]
  simp

/-- Draining after cancellation: every remaining job is dequeued and
marked cancelled; no exception; flags unchanged. -/
theorem drainCancelled_shape :
    ∀ (rem : List ImageQueueItem) (donePart : List (Nat × String)) (p : BatchProcessor),
      p.queue = ⟨rem, rem.length⟩ →
      TrackerStates p.status_tracker
        (donePart ++ rem.map (fun it => (it.id, "pending"))) →
      (∀ e ∈ donePart, e.2 ∈ validStates) →
      ((donePart ++ rem.map (fun it => (it.id, "pending"))).map Prod.fst).Nodup →
      ∃ p2, BatchProcessor.drainCancelled rem.length p = (p2, none) ∧
        TrackerStates p2.status_tracker
          (donePart ++ rem.map (fun it => (it.id, "cancelled"))) ∧
        p2.queue = ⟨[], 0⟩ ∧
        p2.paused = p.paused ∧ p2.cancelled = p.cancelled ∧
        p2.processing = p.processing ∧ p2.preview_mode = p.preview_mode ∧
        p2.preview_processed = p.preview_processed ∧
        p2.preview_approved = p.preview_approved ∧
        p2.preview_result = p.preview_result := by
  intro rem
  induction rem with
  | nil =>
    intro donePart p hq ht hvalids hnodup
    exact ⟨p, rfl, by simpa using ht, hq, rfl, rfl, rfl, rfl, rfl, rfl, rfl⟩
  | cons it rest ih =>
    intro donePart p hq ht hvalids hnodup
    have hvalid0 : ∀ e ∈ donePart ++ (it.id, "pending") ::
        rest.map (fun it2 => (it2.id, "pending")), e.2 ∈ validStates := by
      intro e he
      rcases List.mem_append.mp he with he | he
      · exact hvalids e he
      · rcases List.mem_cons.mp he with rfl | he
        · simp [validStates]
        · rcases List.mem_map.mp he with ⟨it2, -, rfl⟩
          simp [validStates]
    obtain ⟨t2, hok, ht2, -⟩ :=
      update_shape p.status_tracker it.id "cancelled" none none p.clock donePart
        (rest.map (fun it2 => (it2.id, "pending"))) "pending"
        (by simpa using ht) (by simp [validStates]) hvalid0 (by simpa using hnodup)
    obtain ⟨p3, hdrain, hstates3, hqueue3, hflags1, hflags2, hflags3, hflags4,
        hflags5, hflags6, hflags7⟩ :=
      ih (donePart ++ [(it.id, "cancelled")])
        { p with queue := ⟨rest, rest.length⟩, clock := p.clock + 1, status_tracker := t2 }
        rfl
        (by rw [List.append_assoc, List.singleton_append]; exact ht2)
        (by
          intro e he
          rcases List.mem_append.mp he with he | he
          · exact hvalids e he
          · rcases List.mem_cons.mp he with rfl | he
            · simp [validStates]
            · simp at he)
        (by simpa using hnodup)
    refine ⟨p3, ?_, ?_, hqueue3, hflags1, hflags2, hflags3, hflags4, hflags5,
      hflags6, hflags7⟩
    · show BatchProcessor.drainCancelled (rest.length + 1) p = (p3, none)
      rw [BatchProcessor.drainCancelled]
      rw [if_neg (by rw [hq]; simp)]
      have hdeq : p.queue.dequeue = (some it, ⟨rest, rest.length⟩) := by
        rw [hq]
        rfl
      rw [hdeq]
      dsimp only
      rw [hok]
      exact hdrain
    · rw [List.append_assoc, List.singleton_append] at hstates3
      simpa using hstates3

theorem doneState_ne_cancelled (render : ImageQueueItem → Option String)
    (it : ImageQueueItem) : doneState render it ≠ "cancelled" := by
  unfold doneState
  cases h : render it <;> simp

theorem start_processing_nonpreview (render : ImageQueueItem → Option String)
    (sched : Nat → List Ctl) (p : BatchProcessor)
    (hsz : p.queue.size ≠ 0) (hproc : p.processing = false)
    (hpm : p.preview_mode = false) :
    p.start_processing render sched =
      (match BatchProcessor.runLoop render sched
          ({ p with processing := true, cancelled := false, paused := false } :
            BatchProcessor).queue.size 0
          { p with processing := true, cancelled := false, paused := false } with
       | (p2, exc) => (BatchProcessor.startFinally p2, exc)) := by
  unfold BatchProcessor.start_processing
  rw [if_neg hsz, if_neg (by simp [hproc]), if_neg (by simp [hpm])]
  dsimp only
  rw [if_neg (by simp [hpm])]

theorem C7_counts (render : ImageQueueItem → Option String) (it0 : ImageQueueItem)
    (rest : List ImageQueueItem) (t : StatusTracker)
    (ht : TrackerStates t
      ((it0.id, doneState render it0) :: rest.map (fun it => (it.id, "cancelled")))) :
    t.get_summary.pending = 0 ∧ t.get_summary.processing = 0 ∧
    t.get_summary.cancelled = rest.length ∧
    t.get_summary.completed + t.get_summary.failed = 1 := by
  refine ⟨?_, ?_, ?_, ?_⟩
  · rw [get_summary_pending, countState_eq_countSt ht]
    apply countSt_eq_zero
    intro e he
    rcases List.mem_cons.mp he with rfl | he
    · exact terminal_ne_pending (doneState_terminal render it0)
    · rcases List.mem_map.mp he with ⟨it2, -, rfl⟩
      simp
  · rw [get_summary_processing, countState_eq_countSt ht]
    apply countSt_eq_zero
    intro e he
    rcases List.mem_cons.mp he with rfl | he
    · exact terminal_ne_processing (doneState_terminal render it0)
    · rcases List.mem_map.mp he with ⟨it2, -, rfl⟩
      simp
  · rw [get_summary_cancelled, countState_eq_countSt ht, countSt_cons,
      if_neg (doneState_ne_cancelled render it0), countSt_cancelled_map]
    omega
  · have htailc : countSt (rest.map (fun it => (it.id, "cancelled"))) "completed" = 0 := by
      apply countSt_eq_zero
      intro e he
      rcases List.mem_map.mp he with ⟨it2, -, rfl⟩
      simp
    have htailf : countSt (rest.map (fun it => (it.id, "cancelled"))) "failed" = 0 := by
      apply countSt_eq_zero
      intro e he
      rcases List.mem_map.mp he with ⟨it2, -, rfl⟩
      simp
    rw [get_summary_completed, get_summary_failed, countState_eq_countSt ht,
      countState_eq_countSt ht, countSt_cons, countSt_cons, htailc, htailf]
    cases hr : render it0
    · rw [doneState_none hr]
      simp
    · rw [doneState_some hr]
      simp

/-- C7: for a batch of `n ≥ 1` jobs (preview off) where a
`cancel_processing` call arrives after the first job finished (before
iteration 1's flag checks), `start_processing` returns with the first
job keeping its renderer-dictated terminal status, all `n - 1`
remaining jobs dequeued and marked cancelled, and no job left pending
or processing. -/
theorem C7_cancel_after_first_job (render : ImageQueueItem → Option String)
    (it0 : ImageQueueItem) (rest : List ImageQueueItem) (p : BatchProcessor)
    (hready : ReadyToStart p (it0 :: rest)) (hpm : p.preview_mode = false) :
    ∃ p2, p.start_processing render (cancelAt 1) = (p2, none) ∧
      TrackerStates p2.status_tracker
        ((it0.id, doneState render it0) :: rest.map (fun it => (it.id, "cancelled"))) ∧
      p2.status_tracker.get_summary.pending = 0 ∧
      p2.status_tracker.get_summary.processing = 0 ∧
      p2.status_tracker.get_summary.cancelled = rest.length ∧
      p2.status_tracker.get_summary.completed + p2.status_tracker.get_summary.failed = 1 ∧
      p2.queue = ⟨[], 0⟩ ∧ p2.processing = false := by
  obtain ⟨hq, ht, hnodup, hend, hproc, hpause, hcancel, hpp, hpa⟩ := hready
  have hsz_ne : p.queue.size ≠ 0 := by
    rw [hq]
    show (it0 :: rest).length ≠ 0
    simp
  have hstart := start_processing_nonpreview render (cancelAt 1) p hsz_ne hproc hpm
  have hq1 : ({ p with processing := true, cancelled := false, paused := false } : BatchProcessor).queue = ⟨it0 :: rest, (it0 :: rest).length⟩ := by
    show p.queue = _
    rw [hq]
  obtain ⟨tb, hpsi, htb_states, htb1, htb2⟩ :=
    process_single_image_shape render
      { ({ p with processing := true, cancelled := false, paused := false } : BatchProcessor) with queue := ⟨rest, rest.length⟩ } it0
      [] (rest.map fun it2 => (it2.id, "pending"))
      (by simpa using ht) (by intro e he; simp at he) (by simp)
      (by simpa using hnodup) hend
  have hstep0 := runLoop_step render (cancelAt 1) rest.length 0
    ({ p with processing := true, cancelled := false, paused := false } : BatchProcessor) (by rw [hq1]; simp)
  have happ0 : applyCtls ({ p with processing := true, cancelled := false, paused := false } : BatchProcessor) (cancelAt 1 0) = ({ p with processing := true, cancelled := false, paused := false } : BatchProcessor) := rfl
  rw [happ0,
    if_neg (show ¬(({ p with processing := true, cancelled := false, paused := false } : BatchProcessor).paused = true) from Bool.false_ne_true),
    if_neg (show ¬(({ p with processing := true, cancelled := false, paused := false } : BatchProcessor).cancelled = true) from Bool.false_ne_true)] at hstep0
  have hdeq0 : ({ p with processing := true, cancelled := false, paused := false } : BatchProcessor).queue.dequeue = (some it0, ⟨rest, rest.length⟩) := by
    rw [hq1]
    rfl
  rw [hdeq0] at hstep0
  dsimp only at hstep0
  rw [hpsi] at hstep0
  dsimp only at hstep0
  have hfps : ({ p with processing := true, cancelled := false, paused := false } : BatchProcessor).queue.size = (it0 :: rest).length := by
    rw [hq1]
  cases rest with
  | nil =>
    have hloop : BatchProcessor.runLoop render (cancelAt 1)
        ((it0 :: ([] : List ImageQueueItem)).length) 0 ({ p with processing := true, cancelled := false, paused := false } : BatchProcessor) = (({ p with processing := true, cancelled := false, paused := false, queue := ⟨([] : List ImageQueueItem), ([] : List ImageQueueItem).length⟩, clock := p.clock + 2, status_tracker := tb } : BatchProcessor), none) :=
      hstep0.trans rfl
    have hfinal : p.start_processing render (cancelAt 1) =
        (BatchProcessor.startFinally ({ p with processing := true, cancelled := false, paused := false, queue := ⟨([] : List ImageQueueItem), ([] : List ImageQueueItem).length⟩, clock := p.clock + 2, status_tracker := tb } : BatchProcessor), none) := by
      rw [hstart, hfps, hloop]
    have hfin2 : BatchProcessor.startFinally ({ p with processing := true, cancelled := false, paused := false, queue := ⟨([] : List ImageQueueItem), ([] : List ImageQueueItem).length⟩, clock := p.clock + 2, status_tracker := tb } : BatchProcessor) =
        { p with processing := false, cancelled := false, paused := false, queue := ⟨([] : List ImageQueueItem), ([] : List ImageQueueItem).length⟩, clock := p.clock + 2, status_tracker := tb } := by
      unfold BatchProcessor.startFinally
      rw [if_neg (by simp [hpm])]
    have hts : TrackerStates tb ((it0.id, doneState render it0) ::
        ([] : List ImageQueueItem).map (fun it => (it.id, "cancelled"))) := by
      simpa using htb_states
    obtain ⟨hc1, hc2, hc3, hc4⟩ := C7_counts render it0 [] tb hts
    refine ⟨_, hfinal.trans (by rw [hfin2]), hts, hc1, hc2, by simpa using hc3, hc4,
      rfl, rfl⟩
  | cons r rs =>
    obtain ⟨p3, hdrain, hstates3, hqueue3, hfl1, hfl2, hfl3, hfl4, hfl5, hfl6, hfl7⟩ :=
      drainCancelled_shape (r :: rs) [(it0.id, doneState render it0)]
        ({ p with processing := true, cancelled := true, paused := false, queue := ⟨r :: rs, (r :: rs).length⟩, clock := p.clock + 2, status_tracker := tb } : BatchProcessor)
        rfl
        (by simpa using htb_states)
        (by
          intro e he
          rcases List.mem_cons.mp he with rfl | he
          · exact terminal_valid (doneState_terminal render it0)
          · simp at he)
        (by simpa using hnodup)
    have hstep1 := runLoop_step render (cancelAt 1) rs.length 1 ({ p with processing := true, cancelled := false, paused := false, queue := ⟨r :: rs, (r :: rs).length⟩, clock := p.clock + 2, status_tracker := tb } : BatchProcessor) (by simp)
    have happ1 : applyCtls ({ p with processing := true, cancelled := false, paused := false, queue := ⟨r :: rs, (r :: rs).length⟩, clock := p.clock + 2, status_tracker := tb } : BatchProcessor) (cancelAt 1 1) = ({ p with processing := true, cancelled := true, paused := false, queue := ⟨r :: rs, (r :: rs).length⟩, clock := p.clock + 2, status_tracker := tb } : BatchProcessor) := rfl
    rw [happ1,
      if_neg (show ¬(({ p with processing := true, cancelled := true, paused := false, queue := ⟨r :: rs, (r :: rs).length⟩, clock := p.clock + 2, status_tracker := tb } : BatchProcessor).paused = true) from Bool.false_ne_true),
      if_pos (show ({ p with processing := true, cancelled := true, paused := false, queue := ⟨r :: rs, (r :: rs).length⟩, clock := p.clock + 2, status_tracker := tb } : BatchProcessor).cancelled = true from rfl)] at hstep1
    rw [show ({ p with processing := true, cancelled := true, paused := false, queue := ⟨r :: rs, (r :: rs).length⟩, clock := p.clock + 2, status_tracker := tb } : BatchProcessor).queue.size = (r :: rs).length from rfl, hdrain] at hstep1
    have hloop : BatchProcessor.runLoop render (cancelAt 1)
        ((it0 :: r :: rs).length) 0 ({ p with processing := true, cancelled := false, paused := false } : BatchProcessor) = (p3, none) :=
      hstep0.trans hstep1
    have hfinal : p.start_processing render (cancelAt 1) =
        (BatchProcessor.startFinally p3, none) := by
      rw [hstart, hfps, hloop]
    have hfin2 : BatchProcessor.startFinally p3 = { p3 with processing := false } := by
      unfold BatchProcessor.startFinally
      rw [if_neg (by rw [hfl4]; simp [hpm])]
    have hts : TrackerStates p3.status_tracker ((it0.id, doneState render it0) ::
        (r :: rs).map (fun it => (it.id, "cancelled"))) := by
      rw [show ((it0.id, doneState render it0) :: (r :: rs).map (fun it => (it.id, "cancelled"))) = ([(it0.id, doneState render it0)] ++ (r :: rs).map (fun it => (it.id, "cancelled"))) from rfl]
      exact hstates3
    obtain ⟨hc1, hc2, hc3, hc4⟩ := C7_counts render it0 (r :: rs) p3.status_tracker hts
    exact ⟨{ p3 with processing := false }, hfinal.trans (by rw [hfin2]), hts, hc1,
      hc2, hc3, hc4, hqueue3, rfl⟩

def c7_item0 : ImageQueueItem :=
  { id := 0, input_path := "a.png", output_path := "out/a.png", priority := 0 }

def c7_item1 : ImageQueueItem :=
  { id := 1, input_path := "b.png", output_path := "out/b.png", priority := 0 }

def c7_item2 : ImageQueueItem :=
  { id := 2, input_path := "c.png", output_path := "out/c.png", priority := 0 }

def c7_p0 : BatchProcessor :=
  { preview_mode := false,
    queue := { queue := [c7_item0, c7_item1, c7_item2], size := 3 },
    status_tracker :=
      { statuses := [(0, { id := 0, state := "pending" }), (1, { id := 1, state := "pending" }),
          (2, { id := 2, state := "pending" })],
        batch_start_time := some 0 },
    clock := 3,
    uuid_counter := 3 }

/-- Witness for C7: a three-job batch, renderer succeeding, cancel
delivered after the first job. -/
theorem C7_cancel_after_first_job_witness :
    ∃ p2, c7_p0.start_processing (fun _ => none) (cancelAt 1) = (p2, none) ∧
      TrackerStates p2.status_tracker
        ((c7_item0.id, doneState (fun _ => none) c7_item0) ::
          [c7_item1, c7_item2].map (fun it => (it.id, "cancelled"))) ∧
      p2.status_tracker.get_summary.pending = 0 ∧
      p2.status_tracker.get_summary.processing = 0 ∧
      p2.status_tracker.get_summary.cancelled = [c7_item1, c7_item2].length ∧
      p2.status_tracker.get_summary.completed + p2.status_tracker.get_summary.failed = 1 ∧
      p2.queue = ⟨[], 0⟩ ∧ p2.processing = false :=
  C7_cancel_after_first_job (fun _ => none) c7_item0 [c7_item1, c7_item2] c7_p0
    ⟨rfl, rfl, by decide, rfl, rfl, rfl, rfl, rfl, rfl⟩ rfl

/-! ### C5: the preview gate -/

theorem countSt_const_map (rest : List ImageQueueItem) (s : String) :
    countSt (rest.map (fun it => (it.id, s))) s = rest.length := by
  unfold countSt
  rw [List.countP_map]
  simp

theorem countSt_const_map_ne (rest : List ImageQueueItem) (s s2 : String) (h : s ≠ s2) :
    countSt (rest.map (fun it => (it.id, s))) s2 = 0 := by
  apply countSt_eq_zero
  intro e he
  rcases List.mem_map.mp he with ⟨it2, -, rfl⟩
  exact h

theorem counts_terminal_sum (f : List (Nat × String))
    (h : ∀ e ∈ f, e.2 ∈ terminalStates) :
    countSt f "completed" + countSt f "failed" + countSt f "cancelled" = f.length := by
  induction f with
  | nil => simp [countSt]
  | cons e l ih =>
    have he := h e (List.mem_cons_self e l)
    have hrest := ih (fun a ha => h a (List.mem_cons_of_mem e ha))
    rw [countSt_cons, countSt_cons, countSt_cons]
    rcases terminal_cases he with h1 | h1 | h1 <;> simp [h1] <;> omega

theorem startFinally_waiting (q : BatchProcessor) (h1 : q.preview_mode = true)
    (h2 : q.preview_processed = true) (h3 : q.preview_approved = false) :
    BatchProcessor.startFinally q = q := by
  unfold BatchProcessor.startFinally
  rw [if_pos (show q.preview_mode = true ∧ q.preview_processed = true ∧
    q.preview_approved = false from ⟨h1, h2, h3⟩)]

/-- C5: with preview mode on, `n ≥ 2` jobs and every render
succeeding, the first `start_processing` call processes exactly one
job (one terminal, `n - 1` still pending and still queued) and waits
for approval; `approve_preview` then drains the loop, leaving all `n`
jobs terminal and the waiting flag clear. -/
theorem C5_preview_gate (render : ImageQueueItem → Option String)
    (it0 : ImageQueueItem) (rest : List ImageQueueItem) (p : BatchProcessor)
    (hready : ReadyToStart p (it0 :: rest)) (hpm : p.preview_mode = true)
    (hrest_ne : rest ≠ [])
    (hok : ∀ it ∈ (it0 :: rest), render it = none) :
    ∃ p1, p.start_processing render noSched = (p1, none) ∧
      p1.status_tracker.get_summary.completed + p1.status_tracker.get_summary.failed +
        p1.status_tracker.get_summary.cancelled = 1 ∧
      p1.status_tracker.get_summary.pending = rest.length ∧
      p1.queue = ⟨rest, rest.length⟩ ∧
      p1.is_waiting_for_preview_approval = true ∧
      ∃ p2, p1.approve_preview render noSched = (p2, none) ∧
        p2.status_tracker.get_summary.pending = 0 ∧
        p2.status_tracker.get_summary.processing = 0 ∧
        p2.status_tracker.get_summary.completed + p2.status_tracker.get_summary.failed +
          p2.status_tracker.get_summary.cancelled = (it0 :: rest).length ∧
        p2.is_waiting_for_preview_approval = false := by
  obtain ⟨hq, ht, hnodup, hend, hproc, hpause, hcancel, hpp, hpa⟩ := hready
  have hr0 : render it0 = none := hok it0 (List.mem_cons_self it0 rest)
  have hsz_ne : p.queue.size ≠ 0 := by
    rw [hq]
    show (it0 :: rest).length ≠ 0
    simp
  have hq1 : ({ p with processing := true, cancelled := false, paused := false } : BatchProcessor).queue = ⟨it0 :: rest, (it0 :: rest).length⟩ := by
    show p.queue = _
    rw [hq]
  obtain ⟨tb, hpsi, htb_states, htb1, htb2⟩ :=
    process_single_image_shape render { ({ p with processing := true, cancelled := false, paused := false } : BatchProcessor) with queue := ⟨rest, rest.length⟩ } it0
      [] (rest.map fun it2 => (it2.id, "pending"))
      (by simpa using ht) (by intro e he; simp at he) (by simp)
      (by simpa using hnodup) hend
  have hdeq0 : ({ p with processing := true, cancelled := false, paused := false } : BatchProcessor).queue.dequeue = (some it0, ⟨rest, rest.length⟩) := by
    rw [hq1]
    rfl
  have htbc : TrackerStates tb
      ((it0.id, "completed") :: rest.map (fun it2 => (it2.id, "pending"))) := by
    have h2 := htb_states
    rw [doneState_none hr0] at h2
    simpa using h2
  have htb_end : tb.batch_end_time = none := by
    apply htb2
    simpa using hrest_ne
  have hstart : p.start_processing render noSched = (({ p with processing := true, cancelled := false, paused := false, queue := ⟨rest, rest.length⟩, clock := p.clock + 2, status_tracker := tb, preview_result := some ⟨some it0.output_path, it0.input_path, lookupStatus tb it0.id, none, it0.id⟩, preview_processed := true } : BatchProcessor), none) := by
    unfold BatchProcessor.start_processing
    rw [if_neg hsz_ne, if_neg (by simp [hproc]), if_neg (by simp [hpp])]
    dsimp only
    rw [if_pos (show ({ p with processing := true, cancelled := false, paused := false } : BatchProcessor).preview_mode = true ∧ ({ p with processing := true, cancelled := false, paused := false } : BatchProcessor).preview_processed = false
      from ⟨hpm, hpp⟩)]
    rw [hdeq0]
    dsimp only
    rw [hpsi]
    dsimp only
    rw [hr0]
    show (BatchProcessor.startFinally ({ p with processing := true, cancelled := false, paused := false, queue := ⟨rest, rest.length⟩, clock := p.clock + 2, status_tracker := tb, preview_result := some ⟨some it0.output_path, it0.input_path, lookupStatus tb it0.id, none, it0.id⟩, preview_processed := true } : BatchProcessor), none) = (({ p with processing := true, cancelled := false, paused := false, queue := ⟨rest, rest.length⟩, clock := p.clock + 2, status_tracker := tb, preview_result := some ⟨some it0.output_path, it0.input_path, lookupStatus tb it0.id, none, it0.id⟩, preview_processed := true } : BatchProcessor), none)
    rw [startFinally_waiting ({ p with processing := true, cancelled := false, paused := false, queue := ⟨rest, rest.length⟩, clock := p.clock + 2, status_tracker := tb, preview_result := some ⟨some it0.output_path, it0.input_path, lookupStatus tb it0.id, none, it0.id⟩, preview_processed := true } : BatchProcessor) hpm rfl hpa]
  -- phase 1 counts over the projection (it0.id, "completed") :: pending rest
  have hsum1 : tb.get_summary.completed + tb.get_summary.failed +
      tb.get_summary.cancelled = 1 := by
    rw [get_summary_completed, get_summary_failed, get_summary_cancelled,
      countState_eq_countSt htbc, countState_eq_countSt htbc, countState_eq_countSt htbc,
      countSt_cons, countSt_cons, countSt_cons,
      countSt_const_map_ne rest "pending" "completed" (by decide),
      countSt_const_map_ne rest "pending" "failed" (by decide),
      countSt_const_map_ne rest "pending" "cancelled" (by decide)]
    simp
  have hpend1 : tb.get_summary.pending = rest.length := by
    rw [get_summary_pending, countState_eq_countSt htbc, countSt_cons,
      countSt_const_map rest "pending"]
    simp
  -- phase 2: approval re-enters the loop over the remaining queue
  have happr : ({ p with processing := true, cancelled := false, paused := false, queue := ⟨rest, rest.length⟩, clock := p.clock + 2, status_tracker := tb, preview_result := some ⟨some it0.output_path, it0.input_path, lookupStatus tb it0.id, none, it0.id⟩, preview_processed := true } : BatchProcessor).approve_preview render noSched =
      BatchProcessor.continue_after_preview render noSched ({ p with processing := true, cancelled := false, paused := false, queue := ⟨rest, rest.length⟩, clock := p.clock + 2, status_tracker := tb, preview_result := some ⟨some it0.output_path, it0.input_path, lookupStatus tb it0.id, none, it0.id⟩, preview_processed := true, preview_approved := true } : BatchProcessor) := by
    unfold BatchProcessor.approve_preview
    rw [if_neg (by simp [hpm]), if_neg (by simp), if_neg (by simp [hpa])]
  obtain ⟨p3, hloop, hstates3, hqueue3, hend3, hp3, hc3, hproc3, hpm3, hpp3, hpa3, hpr3⟩ :=
    runLoop_noCtl render rest [(it0.id, "completed")] 0 ({ p with processing := true, cancelled := false, paused := false, queue := ⟨rest, rest.length⟩, clock := p.clock + 2, status_tracker := tb, preview_result := some ⟨some it0.output_path, it0.input_path, lookupStatus tb it0.id, none, it0.id⟩, preview_processed := true, preview_approved := true } : BatchProcessor)
      rfl
      (by simpa using htbc)
      (by
        intro e he
        rcases List.mem_cons.mp he with rfl | he
        · simp [terminalStates]
        · simp at he)
      (by simpa using hnodup)
      (fun h => absurd h hrest_ne)
      (fun _ => htb_end)
      rfl rfl
  have hPAsz : ¬(({ p with processing := true, cancelled := false, paused := false, queue := ⟨rest, rest.length⟩, clock := p.clock + 2, status_tracker := tb, preview_result := some ⟨some it0.output_path, it0.input_path, lookupStatus tb it0.id, none, it0.id⟩, preview_processed := true, preview_approved := true } : BatchProcessor).queue.size = 0) := by
    show ¬(rest.length = 0)
    simpa [List.length_eq_zero] using hrest_ne
  have hcont : BatchProcessor.continue_after_preview render noSched ({ p with processing := true, cancelled := false, paused := false, queue := ⟨rest, rest.length⟩, clock := p.clock + 2, status_tracker := tb, preview_result := some ⟨some it0.output_path, it0.input_path, lookupStatus tb it0.id, none, it0.id⟩, preview_processed := true, preview_approved := true } : BatchProcessor) =
      ({ p3 with processing := false }, none) := by
    unfold BatchProcessor.continue_after_preview
    rw [if_neg hPAsz, show ({ p with processing := true, cancelled := false, paused := false, queue := ⟨rest, rest.length⟩, clock := p.clock + 2, status_tracker := tb, preview_result := some ⟨some it0.output_path, it0.input_path, lookupStatus tb it0.id, none, it0.id⟩, preview_processed := true, preview_approved := true } : BatchProcessor).queue.size = rest.length from rfl, hloop]
  have hppt : p3.preview_processed = true := hpp3
  have hpat : p3.preview_approved = true := hpa3
  have hterm2 : ∀ e ∈ [(it0.id, "completed")] ++
      rest.map (fun it => (it.id, doneState render it)), e.2 ∈ terminalStates := by
    intro e he
    rcases List.mem_append.mp he with he | he
    · rcases List.mem_cons.mp he with rfl | he
      · simp [terminalStates]
      · simp at he
    · rcases List.mem_map.mp he with ⟨it2, -, rfl⟩
      exact doneState_terminal render it2
  refine ⟨({ p with processing := true, cancelled := false, paused := false, queue := ⟨rest, rest.length⟩, clock := p.clock + 2, status_tracker := tb, preview_result := some ⟨some it0.output_path, it0.input_path, lookupStatus tb it0.id, none, it0.id⟩, preview_processed := true } : BatchProcessor), hstart, hsum1, hpend1, rfl, ?_, ⟨{ p3 with processing := false },
    happr.trans hcont, ?_, ?_, ?_, ?_⟩⟩
  · show (true && !p.preview_approved) = true
    rw [hpa]
    rfl
  · show p3.status_tracker.get_summary.pending = 0
    rw [get_summary_pending, countState_eq_countSt hstates3]
    exact countSt_eq_zero (fun e he => terminal_ne_pending (hterm2 e he))
  · show p3.status_tracker.get_summary.processing = 0
    rw [get_summary_processing, countState_eq_countSt hstates3]
    exact countSt_eq_zero (fun e he => terminal_ne_processing (hterm2 e he))
  · show p3.status_tracker.get_summary.completed + p3.status_tracker.get_summary.failed +
      p3.status_tracker.get_summary.cancelled = (it0 :: rest).length
    rw [get_summary_completed, get_summary_failed, get_summary_cancelled,
      countState_eq_countSt hstates3, countState_eq_countSt hstates3,
      countState_eq_countSt hstates3, counts_terminal_sum _ hterm2]
    simp
  · show (({ p3 with processing := false } : BatchProcessor).preview_processed &&
      !({ p3 with processing := false } : BatchProcessor).preview_approved) = false
    rw [show ({ p3 with processing := false } : BatchProcessor).preview_processed =
      p3.preview_processed from rfl,
      show ({ p3 with processing := false } : BatchProcessor).preview_approved =
      p3.preview_approved from rfl, hppt, hpat]
    rfl

def c5_item0 : ImageQueueItem :=
  { id := 0, input_path := "a.png", output_path := "out/a.png", priority := 0 }

def c5_item1 : ImageQueueItem :=
  { id := 1, input_path := "b.png", output_path := "out/b.png", priority := 0 }

def c5_p0 : BatchProcessor :=
  { preview_mode := true,
    queue := { queue := [c5_item0, c5_item1], size := 2 },
    status_tracker :=
      { statuses := [(0, { id := 0, state := "pending" }), (1, { id := 1, state := "pending" })],
        batch_start_time := some 0 },
    clock := 2,
    uuid_counter := 2 }

/-- Witness for C5: a two-job preview batch whose renders succeed. -/
theorem C5_preview_gate_witness :
    ∃ p1, c5_p0.start_processing (fun _ => none) noSched = (p1, none) ∧
      p1.status_tracker.get_summary.completed + p1.status_tracker.get_summary.failed +
        p1.status_tracker.get_summary.cancelled = 1 ∧
      p1.status_tracker.get_summary.pending = [c5_item1].length ∧
      p1.queue = ⟨[c5_item1], [c5_item1].length⟩ ∧
      p1.is_waiting_for_preview_approval = true ∧
      ∃ p2, p1.approve_preview (fun _ => none) noSched = (p2, none) ∧
        p2.status_tracker.get_summary.pending = 0 ∧
        p2.status_tracker.get_summary.processing = 0 ∧
        p2.status_tracker.get_summary.completed + p2.status_tracker.get_summary.failed +
          p2.status_tracker.get_summary.cancelled = (c5_item0 :: [c5_item1]).length ∧
        p2.is_waiting_for_preview_approval = false :=
  C5_preview_gate (fun _ => none) c5_item0 [c5_item1] c5_p0
    ⟨rfl, rfl, by decide, rfl, rfl, rfl, rfl, rfl, rfl⟩ rfl (by decide) (fun _ _ => rfl)
